import Mathlib

/-!
Verification of the aggregation and standings-computation engine of the
league-statistics application (`app.py`).

The Python code is shallowly embedded:
* Python `dict`s become association lists (`List (K × V)`) with
  insertion-order semantics: updating an existing key keeps its position,
  a new key is appended at the end (exactly Python 3.7+ dict behaviour).
* Python ints become `Int`; non-negative counters become `Nat`.
* Float points accumulated in steps of `1.0` / `0.5` are modelled as `ℚ`
  (these float operations are exact, so the model is faithful).
* `list.sort` / `sorted` (Timsort, stable) is modelled with
  `List.insertionSort`, which is also stable; a stable sort w.r.t. a total
  preorder has a unique result, so both produce the same list.
* Fallible operations (Python expressions that can raise) live in `Option`;
  `none` models a raised exception.
-/

/-- Association-list lookup, first occurrence (Python `d.get(k)` / `d[k]`). -/
def dictGet? {K V : Type} [DecidableEq K] (k : K) : List (K × V) → Option V
  | [] => none
  | (k', v) :: rest => if k' = k then some v else dictGet? k rest

/-- Python `d[k] = v`: replace the first binding of `k` in place, else append. -/
def dictInsert {K V : Type} [DecidableEq K] (k : K) (v : V) : List (K × V) → List (K × V)
  | [] => [(k, v)]
  | (k', v') :: rest => if k' = k then (k, v) :: rest else (k', v') :: dictInsert k v rest

/-- Python `d[k] = f(d[k])` at call sites where `k` is known to be present
(a no-op when the key is absent; every use in the embedded code has the key
initialised beforehand, as in the source). -/
def dictModify {K V : Type} [DecidableEq K] (k : K) (f : V → V) : List (K × V) → List (K × V)
  | [] => []
  | (k', v') :: rest => if k' = k then (k', f v') :: rest else (k', v') :: dictModify k f rest

/-- Keys of a dict, in insertion order. -/
def dictKeys {K V : Type} (d : List (K × V)) : List K := d.map (·.1)

/-- `k in d` for a Python dict. -/
def dictMem {K V : Type} [DecidableEq K] (k : K) (d : List (K × V)) : Prop :=
  k ∈ dictKeys d

instance {K V : Type} [DecidableEq K] (k : K) (d : List (K × V)) :
    Decidable (dictMem k d) := by
  unfold dictMem; infer_instance

/-- A character stripped by Python `str.strip()` (ASCII fragment). -/
def pySpaceChar (c : Char) : Bool :=
  c = ' ' || c = '\t' || c = '\n' || c = '\r' || c = '\x0b' || c = '\x0c'

/-- Python `str.strip()` on the character list. -/
def pyStripList (l : List Char) : List Char :=
  ((l.dropWhile pySpaceChar).reverse.dropWhile pySpaceChar).reverse

/-- Python `str.strip()`. -/
def pyStripString (s : String) : String := ⟨pyStripList s.data⟩

/-- Python `str.lower()` (ASCII fragment). -/
def pyLowerString (s : String) : String := ⟨s.data.map Char.toLower⟩

/-- Python `int(s)` on a string: optional surrounding whitespace, optional
sign, then a non-empty run of decimal digits (digit-grouping underscores are
not modelled).  `none` models a raised `ValueError`. -/
def pyParseDigits : List Char → Option Nat
  | [] => none
  | [c] => if c.isDigit then some (c.toNat - 48) else none
  | c :: rest =>
    if c.isDigit then
      (pyParseDigits rest).map (fun n => (c.toNat - 48) * 10 ^ rest.length + n)
    else none

/-- Python `int(s)` for a string argument. -/
def pyIntOfString (s : String) : Option Int :=
  match pyStripList s.data with
  | '-' :: rest => (pyParseDigits rest).map (fun n => -(n : Int))
  | '+' :: rest => (pyParseDigits rest).map (fun n => (n : Int))
  | l => (pyParseDigits l).map (fun n => (n : Int))

/-- Python `int(v)` where `v` is a string or `None` (`none` models the raised
`TypeError` / `ValueError`). -/
def pyIntOf (v : Option String) : Option Int := v.bind pyIntOfString

/-- `safe_int(value)` from app.py: `int(value)` with `ValueError`/`TypeError`
caught and replaced by the default `0`. -/
def safe_int (value : Option String) : Int := (pyIntOf value).getD 0

/-- `safe_string(value)` from app.py: `(value or "").strip()`. -/
def safe_string (value : Option String) : String := pyStripString (value.getD "")

/-- Python `v.strip()` where `v` may be `None`: raises `AttributeError`
(modelled by `none`) on `None`. -/
def pyStrip (v : Option String) : Option String := v.map pyStripString

/-- Python `s.isdigit()` (ASCII fragment): non-empty and all digits. -/
def pyIsDigit (s : String) : Bool := s ≠ "" && s.toList.all (·.isDigit)

/-- Truthiness of a Python string: non-empty. -/
def pyTruthy (s : String) : Bool := s ≠ ""

/-- Python `int(a / b)` for integers `a`, `b` (`b > 0` at every call site):
true division followed by `int`, which truncates toward zero. The float
division is modelled as exact. -/
def pyIntDivTrunc (a : Int) (b : Int) : Int := Int.tdiv a b

/-- Python `round(x)` applied to the exact rational `s / n` (`n > 0`):
round-half-to-even. -/
def roundHalfEvenDiv (s : Int) (n : Nat) : Int :=
  let q := Int.fdiv s (n : Int)
  let r := s - q * (n : Int)
  if 2 * r < (n : Int) then q
  else if (n : Int) < 2 * r then q + 1
  else if q % 2 = 0 then q else q + 1

-- ─── ResultRow: one row of league_data.csv after `load_csv_cached` ─────────

/-- A normalised row of the main results table.  `player_id` is kept as an
`Option`: `calculate_player_stats` explicitly tests `pid is None`. -/
structure ResultRow where
  player_id : Option Int
  player_name : String
  event_id : String
  event_date : String
  score : Int
  rank : Int
  points : Int
  event_pr : Int
  season : Int
  tier : String
deriving DecidableEq

-- ─── calculate_player_stats ────────────────────────────────────────────────

/-- The per-player accumulator dict value built by `calculate_player_stats`. -/
structure PlayerAgg where
  player_id : Int
  player_name : String
  wins : Nat
  podiums : Nat
  top10s : Nat
  events_played : Nat
  points : Int
  event_pr_sum : Int
  event_pr_count : Nat
deriving DecidableEq

/-- Fresh accumulator inserted when a player id is first seen. -/
def initAgg (pid : Int) (r : ResultRow) : PlayerAgg :=
  { player_id := pid, player_name := r.player_name,
    wins := 0, podiums := 0, top10s := 0, events_played := 0,
    points := 0, event_pr_sum := 0, event_pr_count := 0 }

/-- The in-place updates performed on `stats[pid]` for one row. -/
def updateAgg (agg : PlayerAgg) (r : ResultRow) : PlayerAgg :=
  let a1 := { agg with events_played := agg.events_played + 1,
                       points := agg.points + r.points,
                       event_pr_sum := agg.event_pr_sum + r.event_pr,
                       event_pr_count := agg.event_pr_count + 1 }
  let a2 := if r.rank = 1 then { a1 with wins := a1.wins + 1 } else a1
  let a3 := if 1 ≤ r.rank ∧ r.rank ≤ 3 then { a2 with podiums := a2.podiums + 1 } else a2
  if 1 ≤ r.rank ∧ r.rank ≤ 10 then { a3 with top10s := a3.top10s + 1 } else a3

/-- One iteration of the `for r in season_rows` loop. -/
def statsStep (d : List (Int × PlayerAgg)) (r : ResultRow) : List (Int × PlayerAgg) :=
  match r.player_id with
  | none => d
  | some pid =>
    let a := (dictGet? pid d).getD (initAgg pid r)
    dictInsert pid (updateAgg a r) d

/-- One entry of the leaderboard returned by `calculate_player_stats`. -/
structure LBEntry where
  player_id : Int
  player_name : String
  points : Int
  wins : Nat
  podiums : Nat
  top10s : Nat
  events_played : Nat
  prettyrating : Int
deriving DecidableEq

/-- Conversion of an accumulator to a leaderboard entry, including
`round(avg_pr)` (Python banker's rounding; `0` when no events counted). -/
def mkLBEntry (agg : PlayerAgg) : LBEntry :=
  { player_id := agg.player_id, player_name := agg.player_name,
    points := agg.points, wins := agg.wins, podiums := agg.podiums,
    top10s := agg.top10s, events_played := agg.events_played,
    prettyrating := if agg.event_pr_count = 0 then 0
                    else roundHalfEvenDiv agg.event_pr_sum agg.event_pr_count }

/-- The order used by `leaderboard.sort(key=(points, wins), reverse=True)`:
`a` may precede `b` iff `(b.points, b.wins) ≤lex (a.points, a.wins)`. -/
def lbRel (a b : LBEntry) : Prop :=
  b.points < a.points ∨ (b.points = a.points ∧ b.wins ≤ a.wins)

instance : DecidableRel lbRel := fun a b => by unfold lbRel; infer_instance

/-- `calculate_player_stats` from app.py. -/
def calculate_player_stats (season_rows : List ResultRow) : List LBEntry :=
  let stats := season_rows.foldl statsStep []
  let leaderboard := stats.map (fun p => mkLBEntry p.2)
  leaderboard.insertionSort lbRel

-- ─── Generic dict lemmas ───────────────────────────────────────────────────

theorem dictGet?_dictInsert {K V : Type} [DecidableEq K] (k k' : K) (v : V)
    (d : List (K × V)) :
    dictGet? k' (dictInsert k v d) = if k = k' then some v else dictGet? k' d := by
  induction d with
  | nil => simp [dictGet?, dictInsert]
  | cons hd tl ih =>
    obtain ⟨k₀, v₀⟩ := hd
    by_cases h : k₀ = k
    · subst h
      by_cases h' : k₀ = k' <;> simp [dictGet?, dictInsert, h']
    · simp only [dictInsert, if_neg h]
      by_cases h' : k₀ = k'
      · subst h'
        have hne : ¬ k = k₀ := fun hh => h hh.symm
        simp [dictGet?, hne]
      · simp [dictGet?, h', ih]

theorem dictGet?_some_mem {K V : Type} [DecidableEq K] {k : K} {v : V}
    {d : List (K × V)} (h : dictGet? k d = some v) : (k, v) ∈ d := by
  induction d with
  | nil => simp [dictGet?] at h
  | cons hd tl ih =>
    obtain ⟨k₀, v₀⟩ := hd
    simp only [dictGet?] at h
    split at h
    · rename_i he
      subst he
      simp at h
      simp [h]
    · simp [ih h]

theorem dictKeys_dictInsert {K V : Type} [DecidableEq K] (k : K) (v : V)
    (d : List (K × V)) :
    dictKeys (dictInsert k v d) =
      if k ∈ dictKeys d then dictKeys d else dictKeys d ++ [k] := by
  induction d with
  | nil => simp [dictKeys, dictInsert]
  | cons hd tl ih =>
    obtain ⟨k₀, v₀⟩ := hd
    by_cases h : k₀ = k
    · subst h
      simp [dictKeys, dictInsert]
    · simp only [dictInsert, if_neg h, dictKeys, List.map_cons] at ih ⊢
      by_cases hk : k ∈ List.map Prod.fst tl
      · simp [hk, ih, Ne.symm h]
      · simp [hk, ih, Ne.symm h]

theorem mem_dictKeys_dictInsert {K V : Type} [DecidableEq K] (k k' : K) (v : V)
    (d : List (K × V)) :
    k' ∈ dictKeys (dictInsert k v d) ↔ k' = k ∨ k' ∈ dictKeys d := by
  rw [dictKeys_dictInsert]
  split
  · rename_i h
    constructor
    · intro h'; exact Or.inr h'
    · rintro (rfl | h') <;> [exact h; exact h']
  · simp [or_comm]

theorem nodup_dictKeys_dictInsert {K V : Type} [DecidableEq K] (k : K) (v : V)
    (d : List (K × V)) (h : (dictKeys d).Nodup) :
    (dictKeys (dictInsert k v d)).Nodup := by
  rw [dictKeys_dictInsert]
  split
  · exact h
  · rename_i hk
    simp [List.nodup_append, h, hk]

theorem dictInsert_forall {K V : Type} [DecidableEq K] (P : K × V → Prop)
    (k : K) (v : V) (hkv : P (k, v)) :
    ∀ (d : List (K × V)), (∀ p ∈ d, P p) → ∀ p ∈ dictInsert k v d, P p := by
  intro d
  induction d with
  | nil => intro _; simpa [dictInsert] using hkv
  | cons hd₀ tl ih =>
    obtain ⟨k₀, v₀⟩ := hd₀
    intro hall
    simp only [dictInsert]
    split
    · intro p hp
      rcases List.mem_cons.mp hp with rfl | hp
      · exact hkv
      · exact hall p (List.mem_cons_of_mem _ hp)
    · intro p hp
      rcases List.mem_cons.mp hp with rfl | hp
      · exact hall _ (List.mem_cons_self _ _)
      · exact ih (fun q hq => hall q (List.mem_cons_of_mem _ hq)) p hp

theorem sum_dictInsert_of_get_some {K V : Type} [DecidableEq K] (f : V → Nat)
    {k : K} {v w : V} {d : List (K × V)} (h : dictGet? k d = some w) :
    ((dictInsert k v d).map (fun p => f p.2)).sum + f w
      = (d.map (fun p => f p.2)).sum + f v := by
  induction d with
  | nil => simp [dictGet?] at h
  | cons hd tl ih =>
    obtain ⟨k₀, v₀⟩ := hd
    simp only [dictGet?] at h
    split at h
    · rename_i he
      simp at h
      subst h
      simp [dictInsert, he]
      omega
    · rename_i he
      simp [dictInsert, he, List.map_cons]
      have := ih h
      omega

theorem sum_dictInsert_of_get_none {K V : Type} [DecidableEq K] (f : V → Nat)
    {k : K} (v : V) {d : List (K × V)} (h : dictGet? k d = none) :
    ((dictInsert k v d).map (fun p => f p.2)).sum
      = (d.map (fun p => f p.2)).sum + f v := by
  induction d with
  | nil => simp [dictInsert]
  | cons hd tl ih =>
    obtain ⟨k₀, v₀⟩ := hd
    simp only [dictGet?] at h
    split at h
    · simp at h
    · rename_i he
      simp [dictInsert, he, List.map_cons, ih h]
      omega

-- ─── Facts about the calculate_player_stats fold ───────────────────────────

theorem updateAgg_player_id (a : PlayerAgg) (r : ResultRow) :
    (updateAgg a r).player_id = a.player_id := by
  simp only [updateAgg]
  split <;> split <;> split <;> rfl

theorem updateAgg_events_played (a : PlayerAgg) (r : ResultRow) :
    (updateAgg a r).events_played = a.events_played + 1 := by
  simp only [updateAgg]
  split <;> split <;> split <;> rfl

theorem updateAgg_counts (a : PlayerAgg) (r : ResultRow)
    (h : a.wins ≤ a.podiums ∧ a.podiums ≤ a.top10s ∧ a.top10s ≤ a.events_played) :
    (updateAgg a r).wins ≤ (updateAgg a r).podiums
      ∧ (updateAgg a r).podiums ≤ (updateAgg a r).top10s
      ∧ (updateAgg a r).top10s ≤ (updateAgg a r).events_played := by
  simp only [updateAgg]
  split_ifs with h1 h2 h3 <;> simp <;> omega

theorem statsFold_keys_nodup (rows : List ResultRow) :
    ∀ d : List (Int × PlayerAgg), (dictKeys d).Nodup →
      (dictKeys (rows.foldl statsStep d)).Nodup := by
  induction rows with
  | nil => intro d h; exact h
  | cons r rest ih =>
    intro d h
    simp only [List.foldl_cons]
    apply ih
    unfold statsStep
    match hr : r.player_id with
    | none => exact h
    | some pid => exact nodup_dictKeys_dictInsert _ _ _ h

theorem statsStep_mem (d : List (Int × PlayerAgg)) (r : ResultRow) (pid : Int) :
    pid ∈ dictKeys (statsStep d r) ↔ pid ∈ dictKeys d ∨ r.player_id = some pid := by
  rcases hr : r.player_id with _ | pid'
  · simp [statsStep, hr]
  · simp only [statsStep, hr, mem_dictKeys_dictInsert, Option.some.injEq]
    constructor
    · rintro (rfl | h)
      · exact Or.inr rfl
      · exact Or.inl h
    · rintro (h | rfl)
      · exact Or.inr h
      · exact Or.inl rfl

theorem statsFold_mem (rows : List ResultRow) :
    ∀ (d : List (Int × PlayerAgg)) (pid : Int),
      pid ∈ dictKeys (rows.foldl statsStep d)
        ↔ pid ∈ dictKeys d ∨ ∃ r ∈ rows, r.player_id = some pid := by
  induction rows with
  | nil => intro d pid; simp
  | cons r rest ih =>
    intro d pid
    simp only [List.foldl_cons, ih, statsStep_mem, List.exists_mem_cons_iff]
    tauto

theorem statsStep_sum (d : List (Int × PlayerAgg)) (r : ResultRow) :
    ((statsStep d r).map (fun p => p.2.events_played)).sum
      = (d.map (fun p => p.2.events_played)).sum
        + (if r.player_id.isSome then 1 else 0) := by
  rcases hr : r.player_id with _ | pid
  · simp [statsStep, hr]
  · simp only [statsStep, hr, Option.isSome_some, if_pos]
    cases hg : dictGet? pid d with
    | none =>
      simp only [hg, Option.getD_none]
      rw [sum_dictInsert_of_get_none (fun v => v.events_played) _ hg]
      simp [updateAgg_events_played, initAgg]
    | some w =>
      simp only [hg, Option.getD_some]
      have h := sum_dictInsert_of_get_some (fun v => v.events_played)
        (v := updateAgg w r) hg
      have he := updateAgg_events_played w r
      simp only [] at h
      omega

theorem statsFold_sum (rows : List ResultRow) :
    ∀ d : List (Int × PlayerAgg),
      ((rows.foldl statsStep d).map (fun p => p.2.events_played)).sum
        = (d.map (fun p => p.2.events_played)).sum
          + rows.countP (fun r => r.player_id.isSome) := by
  induction rows with
  | nil => intro d; simp
  | cons r rest ih =>
    intro d
    simp only [List.foldl_cons, ih, statsStep_sum, List.countP_cons]
    by_cases hb : r.player_id.isSome
    · simp [hb]
      omega
    · simp [hb]

theorem statsStep_forall (P : Int × PlayerAgg → Prop) (d : List (Int × PlayerAgg))
    (r : ResultRow) (hall : ∀ p ∈ d, P p)
    (hupd : ∀ pid a, P (pid, a) → P (pid, updateAgg a r))
    (hinit : ∀ pid : Int, P (pid, updateAgg (initAgg pid r) r)) :
    ∀ p ∈ statsStep d r, P p := by
  rcases hr : r.player_id with _ | pid
  · simpa [statsStep, hr] using hall
  · simp only [statsStep, hr]
    cases hg : dictGet? pid d with
    | none =>
      simp only [hg, Option.getD_none]
      exact dictInsert_forall P pid _ (hinit pid) d hall
    | some w =>
      simp only [hg, Option.getD_some]
      exact dictInsert_forall P pid _
        (hupd pid w (hall _ (dictGet?_some_mem hg))) d hall

theorem statsFold_forall (P : Int × PlayerAgg → Prop) (rows : List ResultRow)
    (hupd : ∀ pid a r, P (pid, a) → P (pid, updateAgg a r))
    (hinit : ∀ (pid : Int) (r : ResultRow), P (pid, updateAgg (initAgg pid r) r)) :
    ∀ d : List (Int × PlayerAgg), (∀ p ∈ d, P p) →
      ∀ p ∈ rows.foldl statsStep d, P p := by
  induction rows with
  | nil => intro d h; exact h
  | cons r rest ih =>
    intro d h
    simp only [List.foldl_cons]
    exact ih _ (statsStep_forall P d r h (fun pid a => hupd pid a r) (fun pid => hinit pid r))

theorem mkLBEntry_player_id (a : PlayerAgg) : (mkLBEntry a).player_id = a.player_id := rfl

theorem mkLBEntry_events_played (a : PlayerAgg) :
    (mkLBEntry a).events_played = a.events_played := rfl

/-- C2: for every sequence of ResultRows given to `calculate_player_stats`,
rows whose player id is absent are excluded, the output has exactly one
summary entry per distinct present `player_id` (its entries' ids are
duplicate-free, and an id appears iff some input row carries it), and the sum
of `events_played` over all entries equals the number of input rows with a
present player id. -/
theorem calculate_player_stats_partition (rows : List ResultRow) :
    ((calculate_player_stats rows).map (fun e => e.player_id)).Nodup
    ∧ (∀ pid : Int, (∃ e ∈ calculate_player_stats rows, e.player_id = pid)
        ↔ ∃ r ∈ rows, r.player_id = some pid)
    ∧ ((calculate_player_stats rows).map (fun e => e.events_played)).sum
        = rows.countP (fun r => r.player_id.isSome) := by
  have hperm : (calculate_player_stats rows).Perm
      ((rows.foldl statsStep []).map (fun p => mkLBEntry p.2)) := by
    unfold calculate_player_stats
    exact List.perm_insertionSort lbRel _
  have hpidD : ∀ p ∈ rows.foldl statsStep [], p.2.player_id = p.1 := by
    apply statsFold_forall (fun p => p.2.player_id = p.1) rows
    · intro pid a r h
      simpa [updateAgg_player_id] using h
    · intro pid r
      simp [updateAgg_player_id, initAgg]
    · intro p hp
      simp at hp
  refine ⟨?_, ?_, ?_⟩
  · rw [List.Perm.nodup_iff (hperm.map (fun e => e.player_id))]
    rw [List.map_map]
    have hmap : (rows.foldl statsStep []).map
        ((fun e => e.player_id) ∘ fun p => mkLBEntry p.2)
        = (rows.foldl statsStep []).map (fun p => p.1) :=
      List.map_congr_left (fun p hp => by
        simp [Function.comp, mkLBEntry_player_id, hpidD p hp])
    rw [hmap]
    exact statsFold_keys_nodup rows [] (by simp [dictKeys])
  · intro pid
    have hkeys := statsFold_mem rows [] pid
    simp only [dictKeys, List.map_nil, List.not_mem_nil, false_or] at hkeys
    rw [← hkeys]
    constructor
    · rintro ⟨e, he, hpid⟩
      have he' := hperm.mem_iff.mp he
      obtain ⟨p, hp, rfl⟩ := List.mem_map.mp he'
      have : p.2.player_id = p.1 := hpidD p hp
      rw [mkLBEntry_player_id] at hpid
      rw [this] at hpid
      subst hpid
      exact List.mem_map.mpr ⟨p, hp, rfl⟩
    · intro hk
      obtain ⟨p, hp, hfst⟩ := List.mem_map.mp hk
      refine ⟨mkLBEntry p.2, hperm.mem_iff.mpr (List.mem_map.mpr ⟨p, hp, rfl⟩), ?_⟩
      rw [mkLBEntry_player_id, hpidD p hp, hfst]
  · have hsum := (hperm.map (fun e => e.events_played)).sum_eq
    rw [hsum, List.map_map]
    have := statsFold_sum rows []
    simpa using this

/-- C10 (implicit): every entry emitted by `calculate_player_stats` satisfies
`wins ≤ podiums ≤ top10s ≤ events_played`, because `rank == 1` implies
`1 ≤ rank ≤ 3` implies `1 ≤ rank ≤ 10`, and every counted row increments
`events_played`. -/
theorem leaderboard_counts_monotone (rows : List ResultRow) (e : LBEntry)
    (he : e ∈ calculate_player_stats rows) :
    e.wins ≤ e.podiums ∧ e.podiums ≤ e.top10s ∧ e.top10s ≤ e.events_played := by
  have hperm : (calculate_player_stats rows).Perm
      ((rows.foldl statsStep []).map (fun p => mkLBEntry p.2)) := by
    unfold calculate_player_stats
    exact List.perm_insertionSort lbRel _
  have he' := hperm.mem_iff.mp he
  obtain ⟨p, hp, rfl⟩ := List.mem_map.mp he'
  have hc := statsFold_forall
    (fun q : Int × PlayerAgg => q.2.wins ≤ q.2.podiums ∧ q.2.podiums ≤ q.2.top10s
      ∧ q.2.top10s ≤ q.2.events_played) rows
    (fun _ a r h => updateAgg_counts a r h)
    (fun _ r => updateAgg_counts _ r (by simp [initAgg]))
    [] (by simp)
  have := hc p hp
  simpa [mkLBEntry] using this

def c10row : ResultRow :=
  { player_id := some 1, player_name := "A", event_id := "e1", event_date := "d1",
    score := 70, rank := 1, points := 10, event_pr := 90, season := 1, tier := "T" }

def c10entry : LBEntry :=
  { player_id := 1, player_name := "A", points := 10, wins := 1, podiums := 1,
    top10s := 1, events_played := 1, prettyrating := 90 }

/-- Witness for C10 at a concrete input. -/
theorem leaderboard_counts_monotone_witness :
    c10entry.wins ≤ c10entry.podiums ∧ c10entry.podiums ≤ c10entry.top10s
      ∧ c10entry.top10s ≤ c10entry.events_played :=
  leaderboard_counts_monotone [c10row] c10entry (by decide)

-- ─── Sorted distinct values (Python `sorted({...})`) ───────────────────────

/-- `sorted({...})` over ints: distinct values, ascending. -/
def pySortedSet (l : List Int) : List Int := (l.dedup).insertionSort (· ≤ ·)

/-- `sorted({...})` over strings: distinct values, ascending. -/
def pySortedSetStr (l : List String) : List String := (l.dedup).insertionSort (· ≤ ·)

-- ─── Season-scoped leaderboard routes ──────────────────────────────────────

/-- What `leaderboard.html` is rendered with. -/
structure LeaderboardPage where
  leaderboard : List LBEntry
  seasons_sorted : List Int
  selected_season : Int
  tiers_present : List String
  selected_tier : Option String
deriving DecidableEq

/-- `show_leaderboard` from app.py (routes `/leaderboard` and
`/leaderboard/season/<season_id>`), taking the cached rows as input;
`none` models `abort(404)`. -/
def show_leaderboard (data : List ResultRow) (season_id : Option Int) :
    Option LeaderboardPage :=
  let seasons := pySortedSet (data.map (·.season))
  if seasons = [] then none
  else
    let selected_season :=
      match season_id with
      | some sid => if sid ∈ seasons then sid else seasons.getLastD 0
      | none => seasons.getLastD 0
    let tiers_present :=
      pySortedSetStr ((data.filter (fun r => r.season = selected_season)).map (·.tier))
    let season_rows := data.filter (fun r => r.season = selected_season)
    some { leaderboard := calculate_player_stats season_rows,
           seasons_sorted := seasons,
           selected_season := selected_season,
           tiers_present := tiers_present,
           selected_tier := none }

/-- `show_leaderboard_tier` from app.py
(route `/leaderboard/season/<season_id>/tier/<tier_name>`). -/
def show_leaderboard_tier (data : List ResultRow) (season_id : Int)
    (tier_name : String) : Option LeaderboardPage :=
  let seasons := pySortedSet (data.map (·.season))
  if season_id ∉ seasons then none
  else
    let tiers_present :=
      pySortedSetStr ((data.filter (fun r => r.season = season_id)).map (·.tier))
    if tier_name ∉ tiers_present then none
    else
      let subset := data.filter (fun r => r.season = season_id ∧ r.tier = tier_name)
      some { leaderboard := calculate_player_stats subset,
             seasons_sorted := seasons,
             selected_season := season_id,
             tiers_present := tiers_present,
             selected_tier := some tier_name }

-- ─── Team data model ───────────────────────────────────────────────────────

/-- A dynamically-typed Python value: the `opponent_player_id` column holds an
int (digit strings are converted) or a plain string (the `"Avg"` sentinel, or
any non-digit text).  Python `int == str` comparisons are always `False`. -/
inductive PyVal where
  | PInt (n : Int)
  | PStr (s : String)
deriving DecidableEq

/-- One row of team_data.csv after `load_team_data`. -/
structure TAssign where
  player_id : Int
  team_id : Int
  team_name : String
  opponent_player_id : PyVal
  team_opponent : Option Int
  event : String
  season : Int
deriving DecidableEq

/-- One entry of the `teams` dict built by `load_team_data`. -/
structure TeamInfo where
  team_id : Int
  team_name : String
  season : Int
deriving DecidableEq

/-- The per-team accumulator of `calculate_team_standings`.  Points move in
exact steps of `1.0` / `0.5`, so `ℚ` models the Python floats faithfully. -/
structure TeamStats where
  team_name : String
  wins : Nat
  losses : Nat
  ties : Nat
  points : ℚ
  matches_played : Nat
  team_wins : Nat
  team_losses : Nat
  team_ties : Nat
  team_matches_played : Nat
  points_by_event : List (String × ℚ)
deriving DecidableEq

/-- One iteration of the `player_scores` building loop:
`player_scores[event_id][player_id] = score`. -/
def bpsStep (ps : List (String × List (Option Int × Int))) (ld : ResultRow) :
    List (String × List (Option Int × Int)) :=
  let inner := (dictGet? ld.event_id ps).getD []
  dictInsert ld.event_id (dictInsert ld.player_id ld.score inner) ps

/-- `player_scores[event_id][player_id] = score` built over the season's
rows.  The inner key has the row's `player_id` type (`Option Int`); lookups
from assignments always use a present id. -/
def buildPlayerScores (rows : List ResultRow) :
    List (String × List (Option Int × Int)) :=
  rows.foldl bpsStep []

/-- One iteration of the society-averages loop. -/
def socStep (d : List (String × Int)) (p : String × List (Option Int × Int)) :
    List (String × Int) :=
  let scores := p.2.map (·.2)
  if scores ≠ [] then
    dictInsert p.1 (pyIntDivTrunc scores.sum scores.length) d
  else d

/-- `society_averages[event_id] = int(sum(scores) / len(scores))` for events
with at least one score. -/
def societyAverages (ps : List (String × List (Option Int × Int))) :
    List (String × Int) :=
  ps.foldl socStep []

/-- The zeroed team standings entry. -/
def defaultTeamStats (name : String) : TeamStats :=
  { team_name := name, wins := 0, losses := 0, ties := 0, points := 0,
    matches_played := 0, team_wins := 0, team_losses := 0, team_ties := 0,
    team_matches_played := 0, points_by_event := [] }

/-- One iteration of the standings-initialisation loop. -/
def initStep (teams : List (Int × TeamInfo)) (st : List (Int × TeamStats))
    (a : TAssign) : List (Int × TeamStats) :=
  if a.team_id ∈ dictKeys st then st
  else
    let tname :=
      match dictGet? a.team_id teams with
      | some ti => ti.team_name
      | none => "Team " ++ toString a.team_id
    dictInsert a.team_id (defaultTeamStats tname) st

/-- Standings initialisation: one entry per distinct `team_id` occurring in
the season's assignments, named from the teams dict or `"Team {id}"`. -/
def initTeamStandings (teams : List (Int × TeamInfo))
    (sas : List TAssign) : List (Int × TeamStats) :=
  sas.foldl (initStep teams) []

/-- `wins += 1; points += 1.0; points_by_event[event] += 1.0`. -/
def addWin (e : String) (s : TeamStats) : TeamStats :=
  { s with wins := s.wins + 1, points := s.points + 1,
           points_by_event := dictModify e (· + 1) s.points_by_event }

/-- `losses += 1`. -/
def addLoss (s : TeamStats) : TeamStats := { s with losses := s.losses + 1 }

/-- `ties += 1; points += 0.5; points_by_event[event] += 0.5`. -/
def addTie (e : String) (s : TeamStats) : TeamStats :=
  { s with ties := s.ties + 1, points := s.points + 1/2,
           points_by_event := dictModify e (· + 1/2) s.points_by_event }

/-- `matches_played += 1`. -/
def addMP (s : TeamStats) : TeamStats :=
  { s with matches_played := s.matches_played + 1 }

/-- Ensure `points_by_event[event]` exists (initialised to `0.0`). -/
def initEventPoints (e : String) (s : TeamStats) : TeamStats :=
  if e ∈ dictKeys s.points_by_event then s
  else { s with points_by_event := dictInsert e 0 s.points_by_event }

/-- The society-average branch of the assignment loop (the `st` argument has
already had `points_by_event[event]` initialised for `a`'s team). -/
def processAvg (playerScores : List (String × List (Option Int × Int)))
    (societyAvgs : List (String × Int)) (st : List (Int × TeamStats))
    (a : TAssign) : List (Int × TeamStats) :=
  let player1_score := dictGet? (some a.player_id) ((dictGet? a.event playerScores).getD [])
  let avg_score := (dictGet? a.event societyAvgs).getD 0
  match player1_score with
  | some s1 =>
    if s1 < avg_score then dictModify a.team_id (fun s => addMP (addWin a.event s)) st
    else if avg_score < s1 then dictModify a.team_id (fun s => addMP (addLoss s)) st
    else dictModify a.team_id (fun s => addMP (addTie a.event s)) st
  | none => dictModify a.team_id (fun s => addMP (addLoss s)) st

/-- The player-vs-player branch of the assignment loop, given the first
matching reciprocal assignment. -/
def processPvp (playerScores : List (String × List (Option Int × Int)))
    (st : List (Int × TeamStats)) (a opponent : TAssign) :
    List (Int × TeamStats) :=
  if opponent.player_id ≤ a.player_id then st
  else if opponent.team_id ∉ dictKeys st then st
  else
    let st := dictModify opponent.team_id (initEventPoints a.event) st
    let p1 := dictGet? (some a.player_id) ((dictGet? a.event playerScores).getD [])
    let p2 := dictGet? (some opponent.player_id) ((dictGet? a.event playerScores).getD [])
    match p1, p2 with
    | none, none =>
      dictModify opponent.team_id (fun s => addMP (addTie a.event s))
        (dictModify a.team_id (fun s => addMP (addTie a.event s)) st)
    | none, some _ =>
      dictModify opponent.team_id (fun s => addMP (addWin a.event s))
        (dictModify a.team_id (fun s => addMP (addLoss s)) st)
    | some _, none =>
      dictModify opponent.team_id (fun s => addMP (addLoss s))
        (dictModify a.team_id (fun s => addMP (addWin a.event s)) st)
    | some s1, some s2 =>
      if s1 < s2 then
        dictModify opponent.team_id (fun s => addMP (addLoss s))
          (dictModify a.team_id (fun s => addMP (addWin a.event s)) st)
      else if s2 < s1 then
        dictModify opponent.team_id (fun s => addMP (addWin a.event s))
          (dictModify a.team_id (fun s => addMP (addLoss s)) st)
      else
        dictModify opponent.team_id (fun s => addMP (addTie a.event s))
          (dictModify a.team_id (fun s => addMP (addTie a.event s)) st)

/-- One iteration of the `for assignment in season_assignments` loop of
`calculate_team_standings`. -/
def processAssignment (playerScores : List (String × List (Option Int × Int)))
    (societyAvgs : List (String × Int)) (season_assignments : List TAssign)
    (st : List (Int × TeamStats)) (a : TAssign) : List (Int × TeamStats) :=
  let st := dictModify a.team_id (initEventPoints a.event) st
  let opponent_assignments :=
    if a.opponent_player_id ≠ PyVal.PStr "Avg" then
      season_assignments.filter
        (fun ta => ta.event = a.event ∧ a.opponent_player_id = PyVal.PInt ta.player_id)
    else []
  if a.opponent_player_id = PyVal.PStr "Avg" then
    processAvg playerScores societyAvgs st a
  else
    match opponent_assignments with
    | [] => st
    | opponent :: _ => processPvp playerScores st a opponent

/-- `all_events`: the union of `points_by_event` keys over all teams
(modelled in first-occurrence order; each event is handled independently, so
the set-iteration order is immaterial). -/
def collectEvents (st : List (Int × TeamStats)) : List String :=
  st.foldl (fun acc p =>
    p.2.points_by_event.foldl
      (fun acc' q => if q.1 ∈ acc' then acc' else acc' ++ [q.1]) acc) []

/-- Teams participating in an event, with their point subtotal for it. -/
def teamsInEvent (st : List (Int × TeamStats)) (sas : List TAssign)
    (e : String) : List (Int × ℚ) :=
  st.filterMap (fun p =>
    let event_points := (dictGet? e p.2.points_by_event).getD 0
    if 0 < event_points ∨ sas.any (fun ta => ta.event = e && ta.team_id = p.1)
    then some (p.1, event_points) else none)

/-- The team-level credit for one event: win/tie/loss against the season
thresholds, plus one team-level match played. -/
def teamEventUpdate (win_threshold tie_threshold points : ℚ)
    (s : TeamStats) : TeamStats :=
  if win_threshold ≤ points then
    { s with team_wins := s.team_wins + 1,
             team_matches_played := s.team_matches_played + 1 }
  else if tie_threshold ≤ points then
    { s with team_ties := s.team_ties + 1,
             team_matches_played := s.team_matches_played + 1 }
  else
    { s with team_losses := s.team_losses + 1,
             team_matches_played := s.team_matches_played + 1 }

/-- Classify each participating team's event subtotal against the season
thresholds, crediting one team-level result per event. -/
def applyEventResult (win_threshold tie_threshold : ℚ) (sas : List TAssign)
    (st : List (Int × TeamStats)) (e : String) : List (Int × TeamStats) :=
  (teamsInEvent st sas e).foldl (fun st' q =>
    dictModify q.1 (teamEventUpdate win_threshold tie_threshold q.2) st') st

/-- The final `sorted(..., key=(points, wins), reverse=True)` order. -/
def standingsRel (a b : Int × TeamStats) : Prop :=
  b.2.points < a.2.points ∨ (b.2.points = a.2.points ∧ b.2.wins ≤ a.2.wins)

instance : DecidableRel standingsRel := fun a b => by unfold standingsRel; infer_instance

/-- `calculate_team_standings` from app.py, taking the outputs of
`load_team_data` and `load_csv_cached` as inputs. -/
def calculate_team_standings (teams : List (Int × TeamInfo))
    (team_assignments : List TAssign) (league_data : List ResultRow)
    (season : Int) : List (Int × TeamStats) :=
  let season_assignments := team_assignments.filter (fun ta => ta.season = season)
  let season_league_data := league_data.filter (fun ld => ld.season = season)
  let player_scores := buildPlayerScores season_league_data
  let society_averages := societyAverages player_scores
  let st0 := initTeamStandings teams season_assignments
  let st1 := season_assignments.foldl
    (processAssignment player_scores society_averages season_assignments) st0
  let win_threshold : ℚ := if season = 2 then 5/2 else 3
  let tie_threshold : ℚ := if season = 2 then 2 else 5/2
  let all_events := collectEvents st1
  let st2 := all_events.foldl
    (applyEventResult win_threshold tie_threshold season_assignments) st1
  st2.insertionSort standingsRel

/-- `show_teams_overview` from app.py
(route `/teams/standings/season/<season_id>`); `none` models `abort(404)`. -/
def show_teams_overview (teams : List (Int × TeamInfo))
    (team_assignments : List TAssign) (league_data : List ResultRow)
    (season_id : Int) : Option (List (Int × TeamStats)) :=
  let seasons := pySortedSet (team_assignments.map (·.season))
  if seasons = [] then none
  else if season_id ∉ seasons then none
  else some (calculate_team_standings teams team_assignments league_data season_id)

/-- The event-score list `team_detail` collects for a society-average
fixture (`ld["score"] is not None` is vacuous after `load_csv_cached`, which
coerces every score with `safe_int`). -/
def detailEventScores (league_data : List ResultRow) (event : String) : List Int :=
  (league_data.filter (fun ld => ld.event_id = event)).map (·.score)

/-- The society average `team_detail` computes for an event
(`int(sum(event_scores) / len(event_scores))`), `none` when no scores. -/
def detailSocietyAvg (league_data : List ResultRow) (event : String) : Option Int :=
  let event_scores := detailEventScores league_data event
  if event_scores ≠ [] then
    some (pyIntDivTrunc event_scores.sum event_scores.length)
  else none

-- ─── MatchRecord and the pairwise aggregators ──────────────────────────────

/-- One row of 2v2_matches.csv / 1v1_matches.csv after loading. -/
structure MatchRec where
  match_id : Int
  season : Int
  phase : String
  date : Option String
  winner_id : Int
  loser_id : Int
  point_diff : Option Int
deriving DecidableEq

/-- The per-team accumulator of `leaderboard_2v2`. -/
structure Stats2v2 where
  wins : Nat
  losses : Nat
  matches_played : Nat
  point_diff : Int
deriving DecidableEq

/-- The per-player accumulator of `leaderboard_1v1` (its dict uses the key
`"played"` for the match count). -/
structure Stats1v1 where
  wins : Nat
  losses : Nat
  played : Nat
  point_diff : Int
deriving DecidableEq

/-- One iteration of the tally loop of `leaderboard_2v2`. -/
def tally2v2 (st : List (Int × Stats2v2)) (m : MatchRec) : List (Int × Stats2v2) :=
  match m.point_diff with
  | none => st
  | some diff =>
    let st :=
      if m.winner_id ∈ dictKeys st then
        dictModify m.winner_id (fun s =>
          { s with wins := s.wins + 1, matches_played := s.matches_played + 1,
                   point_diff := s.point_diff + diff }) st
      else st
    if m.loser_id ∈ dictKeys st then
      dictModify m.loser_id (fun s =>
        { s with losses := s.losses + 1, matches_played := s.matches_played + 1,
                 point_diff := s.point_diff - diff }) st
    else st

/-- One iteration of the tally loop of `leaderboard_1v1`. -/
def tally1v1 (st : List (Int × Stats1v1)) (m : MatchRec) : List (Int × Stats1v1) :=
  match m.point_diff with
  | none => st
  | some d =>
    let st :=
      if m.winner_id ∈ dictKeys st then
        dictModify m.winner_id (fun s =>
          { s with wins := s.wins + 1, played := s.played + 1,
                   point_diff := s.point_diff + d }) st
      else st
    if m.loser_id ∈ dictKeys st then
      dictModify m.loser_id (fun s =>
        { s with losses := s.losses + 1, played := s.played + 1,
                 point_diff := s.point_diff - d }) st
    else st

/-- One entry of the 2v2 teams dict (raw values as stored by the loader). -/
structure Team2v2 where
  team_name : Option String
  conference : Option String
  players : List (Option String)
deriving DecidableEq

/-- One entry of the 1v1 players dict. -/
structure Player1v1 where
  player_name : Option String
  conference : Option String
deriving DecidableEq

/-- Steps 2–3 of `leaderboard_2v2`: initialise a zeroed entry for every team
of the selected conference (in teams-dict order), then tally the matches. -/
def leaderboard_2v2_stats (teams : List (Int × Team2v2)) (ms : List MatchRec)
    (selected_conf : Option String) : List (Int × Stats2v2) :=
  let stats := (teams.filter (fun p => p.2.conference = selected_conf)).map
    (fun p => (p.1, ({ wins := 0, losses := 0, matches_played := 0,
                       point_diff := 0 } : Stats2v2)))
  ms.foldl tally2v2 stats

/-- The corresponding part of `leaderboard_1v1`. -/
def leaderboard_1v1_stats (players : List (Int × Player1v1)) (ms : List MatchRec)
    (selected_conf : Option String) : List (Int × Stats1v1) :=
  let stats := (players.filter (fun p => p.2.conference = selected_conf)).map
    (fun p => (p.1, ({ wins := 0, losses := 0, played := 0,
                       point_diff := 0 } : Stats1v1)))
  ms.foldl tally1v1 stats

-- ─── Head-to-head comparator ───────────────────────────────────────────────

/-- `f"{season}-{event_id}"`. -/
def eventKeyOf (r : ResultRow) : String := toString r.season ++ "-" ++ r.event_id

/-- The single pass that fills `player1_events` and `player2_events`
(`if name == n1.lower(): d1[key] = r elif name == n2.lower(): d2[key] = r`). -/
def h2hBuildDicts (data : List ResultRow) (n1 n2 : String) :
    List (String × ResultRow) × List (String × ResultRow) :=
  data.foldl (fun ds r =>
    let pname := pyLowerString (pyStripString r.player_name)
    if pname = pyLowerString n1 then (dictInsert (eventKeyOf r) r ds.1, ds.2)
    else if pname = pyLowerString n2 then (ds.1, dictInsert (eventKeyOf r) r ds.2)
    else ds) ([], [])

/-- One element of `common_events`. -/
structure H2HEvent where
  season : Int
  event_id : String
  event_date : String
  player1_name : String
  player1_score : Int
  player1_rank : Int
  player1_tier : String
  player2_name : String
  player2_score : Int
  player2_rank : Int
  player2_tier : String
  winner : String
deriving DecidableEq

/-- The entry built for one common event (scores compared with
"lower wins"; `safe_int` applied to an already-int score is the identity). -/
def mkH2HEvent (n1 n2 : String) (p1row p2row : ResultRow) : H2HEvent :=
  { season := p1row.season, event_id := p1row.event_id,
    event_date := p1row.event_date,
    player1_name := p1row.player_name, player1_score := p1row.score,
    player1_rank := p1row.rank, player1_tier := p1row.tier,
    player2_name := p2row.player_name, player2_score := p2row.score,
    player2_rank := p2row.rank, player2_tier := p2row.tier,
    winner := if p1row.score < p2row.score then n1
              else if p2row.score < p1row.score then n2 else "Tie" }

/-- The comparison loop over `player1_events`, returning the (unsorted)
common-event list together with `(player1_wins, player2_wins, ties)`. -/
def h2hCommon (d1 d2 : List (String × ResultRow)) (n1 n2 : String) :
    List H2HEvent × Nat × Nat × Nat :=
  d1.foldl (fun acc p =>
    match dictGet? p.1 d2 with
    | none => acc
    | some p2row =>
      let s1 := p.2.score
      let s2 := p2row.score
      (acc.1 ++ [mkH2HEvent n1 n2 p.2 p2row],
       acc.2.1 + (if s1 < s2 then 1 else 0),
       acc.2.2.1 + (if s2 < s1 then 1 else 0),
       acc.2.2.2 + (if s1 = s2 then 1 else 0))) ([], 0, 0, 0)

/-- `common_events.sort(key=lambda x: (x["season"], x["event_date"]))`. -/
def h2hRel (a b : H2HEvent) : Prop :=
  a.season < b.season ∨ (a.season = b.season ∧ a.event_date ≤ b.event_date)

instance : DecidableRel h2hRel := fun a b => by unfold h2hRel; infer_instance

/-- The head-to-head comparator (POST branch of `head_to_head`), from the
loaded rows and the two (already stripped) form names: the sorted
common-event list and the `(player1_wins, player2_wins, ties)` summary. -/
def head_to_head (data : List ResultRow) (n1 n2 : String) :
    List H2HEvent × Nat × Nat × Nat :=
  let ds := h2hBuildDicts data n1 n2
  let c := h2hCommon ds.1 ds.2 n1 n2
  (c.1.insertionSort h2hRel, c.2.1, c.2.2.1, c.2.2.2)

-- ─── Tabular record loaders (per-row conversion) ───────────────────────────

/-- A raw csv.DictReader row of league_data.csv: each header column maps to
the cell string, or to `none` when the physical row is short (`restval`).
The headers themselves are part of the fixed wire format. -/
structure RawLeagueRow where
  player_id : Option String
  player_name : Option String
  event_id : Option String
  event_date : Option String
  score : Option String
  rank : Option String
  points : Option String
  event_pr : Option String
  season : Option String
  tier : Option String
deriving DecidableEq

/-- The row normalisation inside `load_csv_cached`: every field coerced with
`safe_int` / `safe_string`, so conversion is total. -/
def parseLeagueRow (r : RawLeagueRow) : ResultRow :=
  { player_id := some (safe_int r.player_id),
    player_name := safe_string r.player_name,
    event_id := safe_string r.event_id,
    event_date := safe_string r.event_date,
    score := safe_int r.score,
    rank := safe_int r.rank,
    points := safe_int r.points,
    event_pr := safe_int r.event_pr,
    season := safe_int r.season,
    tier := safe_string r.tier }

/-- The row loop of `load_csv_cached` over parsed csv rows. -/
def load_csv_rows (raws : List RawLeagueRow) : List ResultRow :=
  raws.map parseLeagueRow

/-- A raw row of 2v2_teams.csv. -/
structure Raw2v2TeamRow where
  team_id : Option String
  team_name : Option String
  conference : Option String
  player1 : Option String
  player2 : Option String
deriving DecidableEq

/-- Per-row conversion in `load_2v2_teams`: `int(r["team_id"])` is unguarded,
so a malformed or absent id raises (`none`). -/
def parse2v2TeamRow (r : Raw2v2TeamRow) : Option (Int × Team2v2) :=
  (pyIntOf r.team_id).map (fun tid =>
    (tid, { team_name := r.team_name, conference := r.conference,
            players := [r.player1, r.player2] }))

/-- The row loop of `load_2v2_teams` (any row raising aborts the load). -/
def load_2v2_teams (raws : List Raw2v2TeamRow) : Option (List (Int × Team2v2)) :=
  raws.foldl (fun acc r =>
    acc.bind (fun d => (parse2v2TeamRow r).map (fun p => dictInsert p.1 p.2 d)))
    (some [])

/-- A raw row of 2v2_matches.csv / 1v1_matches.csv. -/
structure RawMatchRow where
  match_id : Option String
  season : Option String
  phase : Option String
  date : Option String
  winner_id : Option String
  loser_id : Option String
  point_diff : Option String
deriving DecidableEq

/-- Per-row conversion shared verbatim by `load_2v2_matches` and
`load_1v1_matches`: guarded `safe_int` / `safe_string` everywhere except
`r.get("point_diff", "").strip()`, which raises `AttributeError` when the
cell value is `None` (short row). -/
def parseMatchRow (r : RawMatchRow) : Option MatchRec :=
  (pyStrip r.point_diff).map (fun pd =>
    { match_id := safe_int r.match_id,
      season := safe_int r.season,
      phase := safe_string r.phase,
      date := if safe_string r.date = "" then none else some (safe_string r.date),
      winner_id := safe_int r.winner_id,
      loser_id := safe_int r.loser_id,
      point_diff := if pyTruthy pd then some (safe_int r.point_diff) else none })

/-- The row loop of `load_2v2_matches`. -/
def load_2v2_matches (raws : List RawMatchRow) : Option (List MatchRec) :=
  raws.foldl (fun acc r =>
    acc.bind (fun ms => (parseMatchRow r).map (fun m => ms ++ [m]))) (some [])

/-- The row loop of `load_1v1_matches` (textually the same as the 2v2 one). -/
def load_1v1_matches (raws : List RawMatchRow) : Option (List MatchRec) :=
  raws.foldl (fun acc r =>
    acc.bind (fun ms => (parseMatchRow r).map (fun m => ms ++ [m]))) (some [])

/-- A raw row of 1v1_players.csv. -/
structure Raw1v1PlayerRow where
  player_id : Option String
  player_name : Option String
  conference : Option String
deriving DecidableEq

/-- Per-row conversion in `load_1v1_players`: `int(r["player_id"])` is
unguarded, so a malformed or absent id raises (`none`). -/
def parse1v1PlayerRow (r : Raw1v1PlayerRow) : Option (Int × Player1v1) :=
  (pyIntOf r.player_id).map (fun pid =>
    (pid, { player_name := r.player_name, conference := r.conference }))

/-- The row loop of `load_1v1_players`. -/
def load_1v1_players (raws : List Raw1v1PlayerRow) : Option (List (Int × Player1v1)) :=
  raws.foldl (fun acc r =>
    acc.bind (fun d => (parse1v1PlayerRow r).map (fun p => dictInsert p.1 p.2 d)))
    (some [])

/-- A raw row of team_data.csv. -/
structure RawTeamDataRow where
  player_id : Option String
  team_id : Option String
  team_name : Option String
  event_1v1_opponent : Option String
  team_opponent : Option String
  event : Option String
  season : Option String
deriving DecidableEq

/-- Per-row behaviour of `load_team_data`:
`none` = a raised `AttributeError` (`None.isdigit()`, not caught by the
loader's `except` clause), `some none` = the row is skipped
(`if not row.get("player_id") ...: continue`), `some (some ta)` = emitted. -/
def parseTeamDataRow (r : RawTeamDataRow) : Option (Option TAssign) :=
  if r.player_id = none ∨ r.player_id = some "" then some none
  else
    let pid := safe_int r.player_id
    let tid := safe_int r.team_id
    let tname := safe_string r.team_name
    let ev := safe_string r.event
    let sea := safe_int r.season
    if r.team_opponent = some "Society Avg" then
      some (some { player_id := pid, team_id := tid, team_name := tname,
                   opponent_player_id := PyVal.PStr "Avg", team_opponent := none,
                   event := ev, season := sea })
    else
      let team_opponent_id : Option Int :=
        match r.team_opponent with
        | some s => if pyTruthy s then some (safe_int (some s)) else none
        | none => none
      (r.event_1v1_opponent).map (fun os =>
        some { player_id := pid, team_id := tid, team_name := tname,
               opponent_player_id :=
                 if pyIsDigit os then PyVal.PInt (safe_int (some os))
                 else PyVal.PStr os,
               team_opponent := team_opponent_id, event := ev, season := sea })

/-- The row loop of `load_team_data`: emitted assignments in order, and the
first-come teams dict. -/
def load_team_data (raws : List RawTeamDataRow) :
    Option (List (Int × TeamInfo) × List TAssign) :=
  raws.foldl (fun acc r =>
    acc.bind (fun p => (parseTeamDataRow r).map (fun o =>
      match o with
      | none => p
      | some ta =>
        (if ta.team_id ∈ dictKeys p.1 then p.1
         else dictInsert ta.team_id
           { team_id := ta.team_id, team_name := ta.team_name,
             season := ta.season } p.1,
         p.2 ++ [ta]))))
    (some ([], []))

-- ─── More dict lemmas ──────────────────────────────────────────────────────

theorem dictKeys_dictModify {K V : Type} [DecidableEq K] (k : K) (f : V → V)
    (d : List (K × V)) : dictKeys (dictModify k f d) = dictKeys d := by
  induction d with
  | nil => rfl
  | cons hd tl ih =>
    obtain ⟨k₀, v₀⟩ := hd
    by_cases h : k₀ = k
    · simp [dictModify, dictKeys, h]
    · simp only [dictModify, if_neg h, dictKeys, List.map_cons]
      simpa [dictKeys] using ih

theorem dictGet?_dictModify {K V : Type} [DecidableEq K] (k k' : K) (f : V → V)
    (d : List (K × V)) :
    dictGet? k' (dictModify k f d)
      = if k = k' then (dictGet? k' d).map f else dictGet? k' d := by
  induction d with
  | nil => simp [dictModify, dictGet?]
  | cons hd tl ih =>
    obtain ⟨k₀, v₀⟩ := hd
    by_cases h : k₀ = k
    · subst h
      by_cases h' : k₀ = k' <;> simp [dictModify, dictGet?, h']
    · simp only [dictModify, if_neg h]
      by_cases h' : k₀ = k'
      · subst h'
        have hne : ¬ k = k₀ := fun hh => h hh.symm
        simp [dictGet?, hne]
      · simp [dictGet?, h', ih]

theorem dictMem_iff_get {K V : Type} [DecidableEq K] (k : K) (d : List (K × V)) :
    k ∈ dictKeys d ↔ (dictGet? k d).isSome := by
  induction d with
  | nil => simp [dictKeys, dictGet?]
  | cons hd tl ih =>
    obtain ⟨k₀, v₀⟩ := hd
    by_cases h : k₀ = k
    · subst h
      simp [dictKeys, dictGet?]
    · have h' : ¬ k = k₀ := fun hh => h hh.symm
      simp only [dictGet?, if_neg h]
      rw [show dictKeys ((k₀, v₀) :: tl) = k₀ :: dictKeys tl from rfl]
      simp only [List.mem_cons]
      rw [← ih]
      simp [h']

theorem dictModify_forall {K V : Type} [DecidableEq K] (P : K × V → Prop)
    (k : K) (f : V → V) (hf : ∀ k' v, P (k', v) → P (k', f v)) :
    ∀ (d : List (K × V)), (∀ p ∈ d, P p) → ∀ p ∈ dictModify k f d, P p := by
  intro d
  induction d with
  | nil => intro _ p hp; simp [dictModify] at hp
  | cons hd tl ih =>
    obtain ⟨k₀, v₀⟩ := hd
    intro hall
    simp only [dictModify]
    split
    · intro p hp
      rcases List.mem_cons.mp hp with rfl | hp
      · exact hf k₀ v₀ (hall _ (List.mem_cons_self _ _))
      · exact hall p (List.mem_cons_of_mem _ hp)
    · intro p hp
      rcases List.mem_cons.mp hp with rfl | hp
      · exact hall _ (List.mem_cons_self _ _)
      · exact ih (fun q hq => hall q (List.mem_cons_of_mem _ hq)) p hp

theorem sum_dictModify_of_fix {K V : Type} [DecidableEq K] (g : V → Nat)
    (k : K) (f : V → V) (hf : ∀ v, g (f v) = g v) (d : List (K × V)) :
    ((dictModify k f d).map (fun p => g p.2)).sum = (d.map (fun p => g p.2)).sum := by
  induction d with
  | nil => rfl
  | cons hd tl ih =>
    obtain ⟨k₀, v₀⟩ := hd
    by_cases h : k₀ = k <;> simp [dictModify, h, hf, ih]

theorem sum_dictModify_of_add {K V : Type} [DecidableEq K] (g : V → Nat) (c : Nat)
    (k : K) (f : V → V) (hf : ∀ v, g (f v) = g v + c) (d : List (K × V))
    (hk : k ∈ dictKeys d) :
    ((dictModify k f d).map (fun p => g p.2)).sum = (d.map (fun p => g p.2)).sum + c := by
  induction d with
  | nil => simp [dictKeys] at hk
  | cons hd tl ih =>
    obtain ⟨k₀, v₀⟩ := hd
    by_cases h : k₀ = k
    · simp [dictModify, h, hf]
      omega
    · have hk' : k ∈ dictKeys tl := by
        rcases List.mem_cons.mp hk with hh | hh
        · exact absurd hh.symm h
        · exact hh
      simp [dictModify, h, ih hk']
      omega

-- ─── C1: unknown-season behaviour of the season-scoped queries ─────────────

theorem mem_pySortedSet (x : Int) (l : List Int) : x ∈ pySortedSet l ↔ x ∈ l := by
  unfold pySortedSet
  rw [(List.perm_insertionSort _ _).mem_iff, List.mem_dedup]

theorem pySortedSet_ne_nil {l : List Int} (h : l ≠ []) : pySortedSet l ≠ [] := by
  intro hc
  rcases List.exists_mem_of_ne_nil l h with ⟨x, hx⟩
  have := (mem_pySortedSet x l).mpr hx
  simp [hc] at this

def c1row : ResultRow :=
  { player_id := some 1, player_name := "A", event_id := "E", event_date := "d",
    score := 70, rank := 1, points := 10, event_pr := 90, season := 1, tier := "t" }

/-- C1 counterexample: with loaded data containing only season 1, asking
`show_leaderboard` for season 2 does NOT yield the not-found condition — it
succeeds, with the page computed for season 1 (the latest season). -/
theorem show_leaderboard_unknown_season_counterexample :
    (show_leaderboard [c1row] (some 2)).isSome = true
    ∧ (show_leaderboard [c1row] (some 2)).map (fun p => p.selected_season) = some 1 := by
  constructor
  · rfl
  · rfl

/-- C1 (amended): `show_leaderboard_tier` and `show_teams_overview` return
the not-found condition for a season id absent from the data, but
`show_leaderboard` instead falls back to the latest season: with non-empty
data it succeeds and serves the last element of the sorted season list
(a season that is present, hence different from the requested one). -/
theorem unknown_season_behaviour (data : List ResultRow)
    (teams : List (Int × TeamInfo)) (tas : List TAssign) (sid : Int) :
    ((∀ r ∈ data, r.season ≠ sid) →
      (∀ tier, show_leaderboard_tier data sid tier = none))
    ∧ ((∀ ta ∈ tas, ta.season ≠ sid) →
        ∀ league, show_teams_overview teams tas league sid = none)
    ∧ (data ≠ [] → (∀ r ∈ data, r.season ≠ sid) →
        ∃ p, show_leaderboard data (some sid) = some p
          ∧ p.selected_season = (pySortedSet (data.map (·.season))).getLastD 0
          ∧ p.selected_season ≠ sid) := by
  refine ⟨?_, ?_, ?_⟩
  · intro h tier
    have hno : sid ∉ pySortedSet (data.map (·.season)) := by
      rw [mem_pySortedSet]
      intro hmem
      obtain ⟨r, hr, hs⟩ := List.mem_map.mp hmem
      exact h r hr hs
    simp [show_leaderboard_tier, hno]
  · intro h league
    by_cases hz : pySortedSet (tas.map (·.season)) = []
    · simp [show_teams_overview, hz]
    · have hno : sid ∉ pySortedSet (tas.map (·.season)) := by
        rw [mem_pySortedSet]
        intro hmem
        obtain ⟨ta, hta, hs⟩ := List.mem_map.mp hmem
        exact h ta hta hs
      simp [show_teams_overview, hno, hz]
  · intro hne h
    have hz : pySortedSet (data.map (·.season)) ≠ [] :=
      pySortedSet_ne_nil (by simpa using hne)
    have hno : sid ∉ pySortedSet (data.map (·.season)) := by
      rw [mem_pySortedSet]
      intro hmem
      obtain ⟨r, hr, hs⟩ := List.mem_map.mp hmem
      exact h r hr hs
    have hlast : (pySortedSet (data.map (·.season))).getLastD 0
        ∈ pySortedSet (data.map (·.season)) := by
      rw [List.getLastD_eq_getLast?, List.getLast?_eq_getLast _ hz]
      simp [List.getLast_mem hz]
    have heq : show_leaderboard data (some sid) =
        some { leaderboard := calculate_player_stats (data.filter
                 (fun r => r.season = (pySortedSet (data.map (·.season))).getLastD 0)),
               seasons_sorted := pySortedSet (data.map (·.season)),
               selected_season := (pySortedSet (data.map (·.season))).getLastD 0,
               tiers_present := pySortedSetStr ((data.filter
                 (fun r => r.season = (pySortedSet (data.map (·.season))).getLastD 0)).map (·.tier)),
               selected_tier := none } := by
      simp only [show_leaderboard, if_neg hz, if_neg hno]
    refine ⟨_, heq, rfl, ?_⟩
    intro hcontra
    have hc2 : (pySortedSet (data.map (·.season))).getLastD 0 = sid := hcontra
    rw [hc2] at hlast
    exact hno hlast

/-- C1 witness: a dataset with seasons {1}; season 2 is unknown, the tier and
teams queries 404, and the bare leaderboard serves season 1. -/
theorem unknown_season_behaviour_witness :
    show_leaderboard_tier [c1row] 2 "t" = none
    ∧ (∃ p, show_leaderboard [c1row] (some 2) = some p
        ∧ p.selected_season = (pySortedSet ([c1row].map (·.season))).getLastD 0
        ∧ p.selected_season ≠ 2) := by
  have h := unknown_season_behaviour [c1row] [] [] 2
  refine ⟨h.1 (by decide) "t", h.2.2 (by decide) (by decide)⟩

-- ─── C8: pairwise aggregation deltas ───────────────────────────────────────

theorem twoStepGet {K V : Type} [DecidableEq K] (w l : K) (f g : V → V)
    (st : List (K × V)) (hne : w ≠ l) :
    dictGet? w (if l ∈ dictKeys (if w ∈ dictKeys st then dictModify w f st else st)
                then dictModify l g (if w ∈ dictKeys st then dictModify w f st else st)
                else (if w ∈ dictKeys st then dictModify w f st else st))
        = (dictGet? w st).map f
    ∧ dictGet? l (if l ∈ dictKeys (if w ∈ dictKeys st then dictModify w f st else st)
                then dictModify l g (if w ∈ dictKeys st then dictModify w f st else st)
                else (if w ∈ dictKeys st then dictModify w f st else st))
        = (dictGet? l st).map g
    ∧ ∀ k, k ≠ w → k ≠ l →
        dictGet? k (if l ∈ dictKeys (if w ∈ dictKeys st then dictModify w f st else st)
                then dictModify l g (if w ∈ dictKeys st then dictModify w f st else st)
                else (if w ∈ dictKeys st then dictModify w f st else st))
          = dictGet? k st := by
  have hlw : ¬ l = w := fun hh => hne hh.symm
  by_cases hw : w ∈ dictKeys st
  · simp only [if_pos hw, dictKeys_dictModify]
    by_cases hl : l ∈ dictKeys st
    · simp only [if_pos hl]
      refine ⟨?_, ?_, ?_⟩
      · rw [dictGet?_dictModify, if_neg hlw, dictGet?_dictModify, if_pos rfl]
      · rw [dictGet?_dictModify, if_pos rfl, dictGet?_dictModify, if_neg hne]
      · intro k hkw hkl
        rw [dictGet?_dictModify, if_neg (fun hh => hkl hh.symm),
            dictGet?_dictModify, if_neg (fun hh => hkw hh.symm)]
    · simp only [if_neg hl]
      have hlnone : dictGet? l st = none :=
        Option.not_isSome_iff_eq_none.mp (fun hs => hl ((dictMem_iff_get l st).mpr hs))
      refine ⟨?_, ?_, ?_⟩
      · rw [dictGet?_dictModify, if_pos rfl]
      · rw [dictGet?_dictModify, if_neg hne, hlnone]
        rfl
      · intro k hkw _
        rw [dictGet?_dictModify, if_neg (fun hh => hkw hh.symm)]
  · simp only [if_neg hw]
    have hwnone : dictGet? w st = none :=
      Option.not_isSome_iff_eq_none.mp (fun hs => hw ((dictMem_iff_get w st).mpr hs))
    by_cases hl : l ∈ dictKeys st
    · simp only [if_pos hl]
      refine ⟨?_, ?_, ?_⟩
      · rw [dictGet?_dictModify, if_neg hlw, hwnone]
        rfl
      · rw [dictGet?_dictModify, if_pos rfl]
      · intro k _ hkl
        rw [dictGet?_dictModify, if_neg (fun hh => hkl hh.symm)]
    · simp only [if_neg hl]
      have hlnone : dictGet? l st = none :=
        Option.not_isSome_iff_eq_none.mp (fun hs => hl ((dictMem_iff_get l st).mpr hs))
      refine ⟨?_, ?_, ?_⟩
      · rw [hwnone]
        rfl
      · rw [hlnone]
        rfl
      · intro k hkw hkl
        trivial

/-- C8: for both pairwise aggregators (2v2 and 1v1), a match with absent
`point_diff` changes no accumulator; for a match with `point_diff = d` and
distinct winner/loser, the tracked winner gains one win, one played match and
`+d` point differential, the tracked loser gains one loss, one played match
and `-d`, and every other entity's accumulator is untouched (an untracked
winner or loser stays untracked: the lookup is mapped over `Option`). -/
theorem pairwise_tally_spec :
    (∀ (st : List (Int × Stats2v2)) (m : MatchRec), m.point_diff = none →
       tally2v2 st m = st)
    ∧ (∀ (st : List (Int × Stats1v1)) (m : MatchRec), m.point_diff = none →
       tally1v1 st m = st)
    ∧ (∀ (st : List (Int × Stats2v2)) (m : MatchRec) (d : Int),
        m.point_diff = some d → m.winner_id ≠ m.loser_id →
        dictGet? m.winner_id (tally2v2 st m)
          = (dictGet? m.winner_id st).map (fun s =>
              { s with wins := s.wins + 1, matches_played := s.matches_played + 1,
                       point_diff := s.point_diff + d })
        ∧ dictGet? m.loser_id (tally2v2 st m)
          = (dictGet? m.loser_id st).map (fun s =>
              { s with losses := s.losses + 1, matches_played := s.matches_played + 1,
                       point_diff := s.point_diff - d })
        ∧ ∀ k, k ≠ m.winner_id → k ≠ m.loser_id →
            dictGet? k (tally2v2 st m) = dictGet? k st)
    ∧ (∀ (st : List (Int × Stats1v1)) (m : MatchRec) (d : Int),
        m.point_diff = some d → m.winner_id ≠ m.loser_id →
        dictGet? m.winner_id (tally1v1 st m)
          = (dictGet? m.winner_id st).map (fun s =>
              { s with wins := s.wins + 1, played := s.played + 1,
                       point_diff := s.point_diff + d })
        ∧ dictGet? m.loser_id (tally1v1 st m)
          = (dictGet? m.loser_id st).map (fun s =>
              { s with losses := s.losses + 1, played := s.played + 1,
                       point_diff := s.point_diff - d })
        ∧ ∀ k, k ≠ m.winner_id → k ≠ m.loser_id →
            dictGet? k (tally1v1 st m) = dictGet? k st) := by
  refine ⟨?_, ?_, ?_, ?_⟩
  · intro st m hm
    simp [tally2v2, hm]
  · intro st m hm
    simp [tally1v1, hm]
  · intro st m d hm hne
    have h := twoStepGet m.winner_id m.loser_id
      (fun s : Stats2v2 =>
        { s with wins := s.wins + 1, matches_played := s.matches_played + 1,
                 point_diff := s.point_diff + d })
      (fun s : Stats2v2 =>
        { s with losses := s.losses + 1, matches_played := s.matches_played + 1,
                 point_diff := s.point_diff - d }) st hne
    simpa [tally2v2, hm] using h
  · intro st m d hm hne
    have h := twoStepGet m.winner_id m.loser_id
      (fun s : Stats1v1 =>
        { s with wins := s.wins + 1, played := s.played + 1,
                 point_diff := s.point_diff + d })
      (fun s : Stats1v1 =>
        { s with losses := s.losses + 1, played := s.played + 1,
                 point_diff := s.point_diff - d }) st hne
    simpa [tally1v1, hm] using h

def c8st : List (Int × Stats2v2) :=
  [(1, { wins := 0, losses := 0, matches_played := 0, point_diff := 0 }),
   (2, { wins := 0, losses := 0, matches_played := 0, point_diff := 0 })]

def c8m : MatchRec :=
  { match_id := 7, season := 1, phase := "Finals", date := some "2024-01-01",
    winner_id := 1, loser_id := 2, point_diff := some 5 }

/-- C8 witness: a completed match between teams 1 and 2 with diff 5. -/
theorem pairwise_tally_spec_witness :
    dictGet? 1 (tally2v2 c8st c8m) = (dictGet? 1 c8st).map (fun s =>
      { s with wins := s.wins + 1, matches_played := s.matches_played + 1,
               point_diff := s.point_diff + 5 }) :=
  (pairwise_tally_spec.2.2.1 c8st c8m 5 rfl (by decide)).1

-- ─── C3: loader behaviour on malformed / absent fields ─────────────────────

/-- C3 counterexample: four of the six loaders violate "never raises /
row still emitted" on some malformed or absent field — the 2v2 teams and
1v1 players loaders raise (`int(...)` unguarded) on a non-numeric id, the
match loaders raise (`None.strip()`) on a physically missing `point_diff`
cell, and the team-assignment loader raises (`None.isdigit()`) on a missing
opponent cell and silently skips a row with an empty `player_id`. -/
theorem loader_raises_counterexample :
    parse2v2TeamRow { team_id := some "x", team_name := some "n",
                      conference := some "c", player1 := some "p",
                      player2 := some "q" } = none
    ∧ parse1v1PlayerRow { player_id := some "x", player_name := some "n",
                          conference := some "c" } = none
    ∧ parseMatchRow { match_id := some "1", season := some "1", phase := some "p",
                      date := some "", winner_id := some "2", loser_id := some "3",
                      point_diff := none } = none
    ∧ parseTeamDataRow { player_id := some "1", team_id := some "2",
                         team_name := some "n", event_1v1_opponent := none,
                         team_opponent := some "3", event := some "E",
                         season := some "4" } = none
    ∧ parseTeamDataRow { player_id := some "", team_id := some "2",
                         team_name := some "n", event_1v1_opponent := some "1",
                         team_opponent := some "3", event := some "E",
                         season := some "4" } = some none := by
  refine ⟨rfl, rfl, rfl, rfl, rfl⟩

/-- C3 (amended): the main results loader is total — it emits every row,
defaulting each field with `safe_int` / `safe_string`.  The match loaders
succeed exactly when the `point_diff` cell is physically present (a present
but malformed value still defaults); the 2v2 teams and 1v1 players loaders
succeed exactly when the id cell parses under Python `int`; the
team-assignment loader never raises when the `event_1v1_opponent` cell is
present, and skips (rather than emits) exactly the rows whose `player_id` is
absent or empty. -/
theorem loader_malformation_behaviour :
    (∀ raws : List RawLeagueRow, (load_csv_rows raws).length = raws.length)
    ∧ parseLeagueRow
        ⟨some "x", none, some " a ", none, some "1.5", none, some "7", none,
         none, some " t "⟩
      = ⟨some 0, "", "a", "", 0, 0, 7, 0, 0, "t"⟩
    ∧ (∀ r : RawMatchRow, (parseMatchRow r).isSome ↔ r.point_diff.isSome)
    ∧ (∀ r : Raw2v2TeamRow, (parse2v2TeamRow r).isSome ↔ (pyIntOf r.team_id).isSome)
    ∧ (∀ r : Raw1v1PlayerRow,
        (parse1v1PlayerRow r).isSome ↔ (pyIntOf r.player_id).isSome)
    ∧ (∀ r : RawTeamDataRow, r.event_1v1_opponent.isSome →
        (parseTeamDataRow r).isSome)
    ∧ (∀ r : RawTeamDataRow,
        parseTeamDataRow r = some none ↔ (r.player_id = none ∨ r.player_id = some "")) := by
  refine ⟨?_, ?_, ?_, ?_, ?_, ?_, ?_⟩
  · intro raws
    simp [load_csv_rows]
  · rfl
  · intro r
    simp [parseMatchRow, pyStrip]
  · intro r
    simp [parse2v2TeamRow]
  · intro r
    simp [parse1v1PlayerRow]
  · intro r hop
    by_cases hskip : r.player_id = none ∨ r.player_id = some ""
    · simp [parseTeamDataRow, hskip]
    · by_cases hsoc : r.team_opponent = some "Society Avg"
      · simp [parseTeamDataRow, hskip, hsoc]
      · obtain ⟨os, hos⟩ := Option.isSome_iff_exists.mp hop
        simp [parseTeamDataRow, hskip, hsoc, hos]
  · intro r
    constructor
    · intro h
      by_cases hskip : r.player_id = none ∨ r.player_id = some ""
      · exact hskip
      · exfalso
        by_cases hsoc : r.team_opponent = some "Society Avg"
        · simp [parseTeamDataRow, hskip, hsoc] at h
        · cases hos : r.event_1v1_opponent with
          | none => simp [parseTeamDataRow, hskip, hsoc, hos] at h
          | some os => simp [parseTeamDataRow, hskip, hsoc, hos] at h
    · intro hskip
      simp [parseTeamDataRow, hskip]

/-- C3 witness: a fully-populated team-assignment row parses without raising. -/
theorem loader_malformation_behaviour_witness :
    (parseTeamDataRow
      ⟨some "1", some "2", some "n", some "7", some "3", some "E", some "4"⟩).isSome :=
  loader_malformation_behaviour.2.2.2.2.2.1
    ⟨some "1", some "2", some "n", some "7", some "3", some "E", some "4"⟩ rfl

-- ─── C5/C6 infrastructure: characterising the score lookup tables ──────────

theorem dictInsert_append {K V : Type} [DecidableEq K] (k : K) (v : V)
    (d : List (K × V)) (h : k ∉ dictKeys d) : dictInsert k v d = d ++ [(k, v)] := by
  induction d with
  | nil => rfl
  | cons hd tl ih =>
    obtain ⟨k₀, v₀⟩ := hd
    have hk : ¬ k₀ = k := by
      intro hh
      exact h (by simp [dictKeys, hh])
    have htl : k ∉ dictKeys tl := by
      intro hh
      exact h (by simp [dictKeys] at hh ⊢; exact Or.inr hh)
    simp [dictInsert, hk, ih htl]

theorem bpsFold_get (rows : List ResultRow) :
    ∀ (ps : List (String × List (Option Int × Int))) (e : String),
      dictGet? e (rows.foldl bpsStep ps)
        = if (rows.filter (fun r => r.event_id = e)) = []
          then dictGet? e ps
          else some ((rows.filter (fun r => r.event_id = e)).foldl
              (fun d r => dictInsert r.player_id r.score d)
              ((dictGet? e ps).getD [])) := by
  induction rows with
  | nil => intro ps e; simp
  | cons r rest ih =>
    intro ps e
    by_cases he : r.event_id = e
    · have hfil : (r :: rest).filter (fun r => r.event_id = e)
          = r :: rest.filter (fun r => r.event_id = e) := by
        simp [List.filter_cons, he]
      have hget : dictGet? e (bpsStep ps r)
          = some (dictInsert r.player_id r.score ((dictGet? e ps).getD [])) := by
        simp only [bpsStep]
        rw [dictGet?_dictInsert, if_pos he, he]
      rw [List.foldl_cons, ih, hfil]
      by_cases hrest : rest.filter (fun r => r.event_id = e) = []
      · simp [hrest, hget]
      · simp only [if_neg hrest, hget]
        have : ¬ (r :: rest.filter (fun r => r.event_id = e)) = [] := by simp
        rw [if_neg this]
        simp [List.foldl_cons]
    · have hfil : (r :: rest).filter (fun r => r.event_id = e)
          = rest.filter (fun r => r.event_id = e) := by
        simp [List.filter_cons, he]
      have hget : dictGet? e (bpsStep ps r) = dictGet? e ps := by
        simp only [bpsStep]
        rw [dictGet?_dictInsert, if_neg he]
      rw [List.foldl_cons, ih, hfil, hget]

theorem bpsFold_keys_nodup (rows : List ResultRow) :
    ∀ ps : List (String × List (Option Int × Int)),
      (dictKeys ps).Nodup → (dictKeys (rows.foldl bpsStep ps)).Nodup := by
  induction rows with
  | nil => intro ps h; exact h
  | cons r rest ih =>
    intro ps h
    rw [List.foldl_cons]
    exact ih _ (nodup_dictKeys_dictInsert _ _ _ h)

theorem innerFold_eq_append (l : List ResultRow) :
    ∀ d : List (Option Int × Int),
      (∀ r ∈ l, r.player_id ∉ dictKeys d) → (l.map (·.player_id)).Nodup →
      l.foldl (fun d r => dictInsert r.player_id r.score d) d
        = d ++ l.map (fun r => (r.player_id, r.score)) := by
  induction l with
  | nil => intro d _ _; simp
  | cons r rest ih =>
    intro d hdisj hnd
    rw [List.foldl_cons, dictInsert_append _ _ _ (hdisj r (List.mem_cons_self _ _))]
    have hnd' : (rest.map (·.player_id)).Nodup := (List.nodup_cons.mp hnd).2
    have hne : r.player_id ∉ rest.map (·.player_id) := (List.nodup_cons.mp hnd).1
    rw [ih _ ?_ hnd']
    · simp
    · intro r' hr'
      rw [dictKeys, List.map_append]
      simp only [List.mem_append]
      rintro (h | h)
      · exact hdisj r' (List.mem_cons_of_mem _ hr') h
      · simp [dictKeys] at h
        exact hne (h ▸ List.mem_map_of_mem (·.player_id) hr')

theorem socFold_get_of_not_mem (ps : List (String × List (Option Int × Int))) :
    ∀ (d : List (String × Int)) (e : String), e ∉ dictKeys ps →
      dictGet? e (ps.foldl socStep d) = dictGet? e d := by
  induction ps with
  | nil => intro d e _; rfl
  | cons p rest ih =>
    intro d e he
    have he1 : ¬ p.1 = e := by
      intro hh
      apply he
      rw [show dictKeys (p :: rest) = p.1 :: dictKeys rest from rfl, hh]
      exact List.mem_cons_self _ _
    have he2 : e ∉ dictKeys rest := fun hh => he (List.mem_cons_of_mem _ hh)
    rw [List.foldl_cons, ih _ _ he2]
    simp only [socStep]
    split
    · rw [dictGet?_dictInsert, if_neg he1]
    · rfl

theorem socFold_get (ps : List (String × List (Option Int × Int))) :
    ∀ (d : List (String × Int)) (e : String), e ∉ dictKeys d →
      (dictKeys ps).Nodup →
      dictGet? e (ps.foldl socStep d)
        = (dictGet? e ps).bind (fun inner =>
            if inner.map (·.2) = [] then none
            else some (pyIntDivTrunc ((inner.map (·.2)).sum) (inner.map (·.2)).length)) := by
  induction ps with
  | nil =>
    intro d e he _
    have : dictGet? e d = none :=
      Option.not_isSome_iff_eq_none.mp (fun hs => he ((dictMem_iff_get e d).mpr hs))
    simp [this, dictGet?]
  | cons p rest ih =>
    intro d e he hnd
    obtain ⟨k, inner⟩ := p
    have hnd0 : (k :: dictKeys rest).Nodup := hnd
    have hk : k ∉ dictKeys rest := (List.nodup_cons.mp hnd0).1
    have hnd' : (dictKeys rest).Nodup := (List.nodup_cons.mp hnd0).2
    by_cases hek : e = k
    · subst hek
      rw [List.foldl_cons, socFold_get_of_not_mem rest _ _ hk]
      rw [show dictGet? e ((e, inner) :: rest) = some inner by simp [dictGet?]]
      rw [Option.some_bind]
      simp only [socStep]
      split
      · rename_i hnon
        rw [dictGet?_dictInsert, if_pos rfl]
      · rename_i hnil
        simp only [ne_eq, not_not] at hnil
        have hdn : dictGet? e d = none :=
          Option.not_isSome_iff_eq_none.mp (fun hs => he ((dictMem_iff_get e d).mpr hs))
        rw [if_pos hnil, hdn]
    · have he' : e ∉ dictKeys (socStep d (k, inner)) := by
        simp only [socStep]
        split
        · rw [mem_dictKeys_dictInsert]
          rintro (h | h)
          · exact hek h
          · exact he h
        · exact he
      rw [List.foldl_cons, ih _ _ he' hnd']
      have hke : ¬ k = e := fun hh => hek hh.symm
      simp [dictGet?, hke]

-- ─── C5: the society average rounding mode ─────────────────────────────────

theorem tdiv_eq_fdiv_of_nonneg (a b : Int) (ha : 0 ≤ a) (hb : 0 ≤ b) :
    Int.tdiv a b = Int.fdiv a b := by
  obtain ⟨m, rfl⟩ := Int.eq_ofNat_of_zero_le ha
  obtain ⟨n, rfl⟩ := Int.eq_ofNat_of_zero_le hb
  rw [← Int.ofNat_tdiv, ← Int.ofNat_fdiv]

def c5negRows : List ResultRow :=
  [{ player_id := some 1, player_name := "A", event_id := "E", event_date := "d",
     score := -1, rank := 1, points := 0, event_pr := 0, season := 1, tier := "t" },
   { player_id := some 2, player_name := "B", event_id := "E", event_date := "d",
     score := -2, rank := 2, points := 0, event_pr := 0, season := 1, tier := "t" }]

/-- C5 counterexample: for event "E" with scores `[-1, -2]` the engine's
society average is `int((-3)/2) = -1` (truncation toward zero), while the
floor of the mean is `-2` — so "floor of the arithmetic mean" is violated. -/
theorem society_average_not_floor_counterexample :
    dictGet? "E" (societyAverages (buildPlayerScores
        (c5negRows.filter (fun r => r.season = 1)))) = some (-1)
    ∧ Int.fdiv ((c5negRows.map (·.score)).sum) ((c5negRows.map (·.score)).length) = -2
    ∧ ((-1 : Int) ≠ -2) := by
  refine ⟨rfl, rfl, by decide⟩

/-- C5 (amended): for an event with at least one recorded score, the society
average equals `int(sum/len)` — truncation toward zero of the arithmetic
mean — and the identical value is computed by `team_detail`
(`detailSocietyAvg`) provided every row of the event belongs to the queried
season and the event's player ids are distinct; truncation agrees with the
floor of the mean whenever the score total is non-negative (in particular on
all the spec's examples). -/
theorem society_average_truncates (league : List ResultRow) (e : String) (s : Int)
    (hall : ∀ r ∈ league, r.event_id = e → r.season = s)
    (hnd : ((league.filter (fun r => r.event_id = e)).map (·.player_id)).Nodup)
    (hne : league.filter (fun r => r.event_id = e) ≠ []) :
    dictGet? e (societyAverages (buildPlayerScores
        (league.filter (fun r => r.season = s))))
      = some (pyIntDivTrunc (((league.filter (fun r => r.event_id = e)).map (·.score)).sum)
              ((league.filter (fun r => r.event_id = e)).map (·.score)).length)
    ∧ detailSocietyAvg league e
      = some (pyIntDivTrunc (((league.filter (fun r => r.event_id = e)).map (·.score)).sum)
              ((league.filter (fun r => r.event_id = e)).map (·.score)).length)
    ∧ (0 ≤ ((league.filter (fun r => r.event_id = e)).map (·.score)).sum →
        pyIntDivTrunc (((league.filter (fun r => r.event_id = e)).map (·.score)).sum)
            ((league.filter (fun r => r.event_id = e)).map (·.score)).length
          = Int.fdiv (((league.filter (fun r => r.event_id = e)).map (·.score)).sum)
              ((league.filter (fun r => r.event_id = e)).map (·.score)).length) := by
  have hfil : (league.filter (fun r => r.season = s)).filter (fun r => r.event_id = e)
      = league.filter (fun r => r.event_id = e) := by
    rw [List.filter_filter]
    apply List.filter_congr
    intro r hr
    by_cases h : r.event_id = e
    · simp [h, hall r hr h]
    · simp [h]
  have h1 : dictGet? e (buildPlayerScores (league.filter (fun r => r.season = s)))
      = some ((league.filter (fun r => r.event_id = e)).map
          (fun r => (r.player_id, r.score))) := by
    rw [buildPlayerScores, bpsFold_get, hfil, if_neg hne]
    rw [innerFold_eq_append _ _ (by simp [dictKeys, dictGet?]) hnd]
    simp [dictGet?]
  have hkeys : (dictKeys (buildPlayerScores (league.filter (fun r => r.season = s)))).Nodup :=
    bpsFold_keys_nodup _ [] (by simp [dictKeys])
  have hmaps : (((league.filter (fun r => r.event_id = e)).map
      (fun r => (r.player_id, r.score))).map (·.2))
      = (league.filter (fun r => r.event_id = e)).map (·.score) := by
    rw [List.map_map]
    rfl
  have hmne : (league.filter (fun r => r.event_id = e)).map (·.score) ≠ [] := by
    simpa using hne
  refine ⟨?_, ?_, ?_⟩
  · rw [societyAverages, socFold_get _ [] e (by simp [dictKeys]) hkeys, h1,
        Option.some_bind, hmaps, if_neg hmne]
  · rw [detailSocietyAvg, detailEventScores]
    rw [if_pos hmne]
  · intro hs
    exact tdiv_eq_fdiv_of_nonneg _ _ hs (Int.natCast_nonneg _)

def c5rows : List ResultRow :=
  [{ player_id := some 1, player_name := "A", event_id := "E", event_date := "d",
     score := 70, rank := 1, points := 0, event_pr := 0, season := 1, tier := "t" },
   { player_id := some 2, player_name := "B", event_id := "E", event_date := "d",
     score := 71, rank := 2, points := 0, event_pr := 0, season := 1, tier := "t" },
   { player_id := some 3, player_name := "C", event_id := "E", event_date := "d",
     score := 72, rank := 3, points := 0, event_pr := 0, season := 1, tier := "t" }]

/-- C5 witness: scores `[70, 71, 72]` in season 1. -/
theorem society_average_truncates_witness :
    dictGet? "E" (societyAverages (buildPlayerScores
        (c5rows.filter (fun r => r.season = 1))))
      = some (pyIntDivTrunc (((c5rows.filter (fun r => r.event_id = "E")).map (·.score)).sum)
              ((c5rows.filter (fun r => r.event_id = "E")).map (·.score)).length)
    ∧ pyIntDivTrunc (((c5rows.filter (fun r => r.event_id = "E")).map (·.score)).sum)
          ((c5rows.filter (fun r => r.event_id = "E")).map (·.score)).length
        = Int.fdiv (((c5rows.filter (fun r => r.event_id = "E")).map (·.score)).sum)
            ((c5rows.filter (fun r => r.event_id = "E")).map (·.score)).length :=
  ⟨(society_average_truncates c5rows "E" 1 (by decide) (by decide) (by decide)).1,
   (society_average_truncates c5rows "E" 1 (by decide) (by decide) (by decide)).2.2
     (by decide)⟩

-- ─── C6: society-average fixture with zero scored entrants ─────────────────

def c6assign : TAssign :=
  { player_id := 1, team_id := 10, team_name := "T10",
    opponent_player_id := PyVal.PStr "Avg", team_opponent := none,
    event := "E", season := 3 }

/-- C6 counterexample: an "Avg" fixture whose event has no recorded scores at
all is NOT a no-result — the code records a loss (DNP vs society average) and
increments `matches_played`. -/
theorem avg_fixture_no_scores_counterexample :
    (calculate_team_standings [] [c6assign] [] 3).map
        (fun p => (p.1, p.2.losses, p.2.matches_played)) = [(10, 1, 1)] := by
  simp [calculate_team_standings, c6assign, initTeamStandings, dictKeys,
    dictInsert, processAssignment, processAvg, dictGet?, dictModify, initEventPoints,
    defaultTeamStats, addLoss, addMP, collectEvents, teamsInEvent,
    applyEventResult, teamEventUpdate, List.insertionSort, List.orderedInsert,
    buildPlayerScores, societyAverages, bpsStep, socStep, standingsRel,
    lt_self_iff_false, (by norm_num : ¬ ((3 : ℚ) ≤ 0)),
    (by norm_num : ¬ ((5 : ℚ)/2 ≤ 0))]

/-- C6 (amended): for a TeamAssignment whose opponent is the "Avg" sentinel
and whose event has zero scored entrants in the queried season, no division
by zero occurs (the averages table simply has no entry for the event, and the
score lookup yields `None`): the fixture is recorded as a loss — `losses` and
`matches_played` each increase by one — with no win, no tie and no points. -/
theorem avg_fixture_no_scores (a : TAssign) (teams : List (Int × TeamInfo))
    (league : List ResultRow) (s : Int)
    (h1 : a.opponent_player_id = PyVal.PStr "Avg") (h2 : a.season = s)
    (h3 : ∀ r ∈ league, r.season = s → r.event_id ≠ a.event) :
    ∃ st : TeamStats,
      calculate_team_standings teams [a] league s = [(a.team_id, st)]
      ∧ st.wins = 0 ∧ st.ties = 0 ∧ st.points = 0
      ∧ st.losses = 1 ∧ st.matches_played = 1 := by
  have hfil : (league.filter (fun r => r.season = s)).filter
      (fun r => r.event_id = a.event) = [] := by
    rw [List.filter_filter, List.filter_eq_nil_iff]
    intro r hr
    simp only [Bool.and_eq_true, decide_eq_true_eq, not_and]
    intro hev hsr
    exact h3 r hr hsr hev
  have hps : dictGet? a.event (buildPlayerScores
      (league.filter (fun r => r.season = s))) = none := by
    rw [buildPlayerScores, bpsFold_get, hfil]
    simp [dictGet?]
  refine ⟨{ team_name := (match dictGet? a.team_id teams with
              | some ti => ti.team_name
              | none => "Team " ++ toString a.team_id),
            wins := 0, losses := 1, ties := 0, points := 0, matches_played := 1,
            team_wins := 0, team_losses := 1, team_ties := 0,
            team_matches_played := 1, points_by_event := [(a.event, 0)] },
          ?_, rfl, rfl, rfl, rfl, rfl⟩
  by_cases hs2 : s = 2
  · subst hs2
    simp [calculate_team_standings, h2, initTeamStandings, dictKeys,
      dictInsert, processAssignment, processAvg, h1, hps, dictGet?, dictModify,
      initEventPoints, defaultTeamStats, addLoss, addMP, collectEvents,
      teamsInEvent, applyEventResult, teamEventUpdate, List.insertionSort,
      List.orderedInsert, lt_self_iff_false, (by norm_num : ¬ ((2 : ℚ) ≤ 0)),
      (by norm_num : ¬ ((5 : ℚ)/2 ≤ 0))]
  · simp [calculate_team_standings, h2, hs2, initTeamStandings, dictKeys,
      dictInsert, processAssignment, processAvg, h1, hps, dictGet?, dictModify,
      initEventPoints, defaultTeamStats, addLoss, addMP, collectEvents,
      teamsInEvent, applyEventResult, teamEventUpdate, List.insertionSort,
      List.orderedInsert, lt_self_iff_false, (by norm_num : ¬ ((3 : ℚ) ≤ 0)),
      (by norm_num : ¬ ((5 : ℚ)/2 ≤ 0))]

-- ─── C7/C4 infrastructure: invariants of the standings reducer ─────────────

/-- The points bookkeeping invariant: `points = 1.0·wins + 0.5·ties`. -/
def pointsInv (v : TeamStats) : Prop :=
  v.points = (v.wins : ℚ) + (v.ties : ℚ)/2

theorem pointsInv_default (nm : String) : pointsInv (defaultTeamStats nm) := by
  simp [pointsInv, defaultTeamStats]

theorem pointsInv_initEventPoints (e : String) (v : TeamStats)
    (h : pointsInv v) : pointsInv (initEventPoints e v) := by
  unfold initEventPoints
  split
  · exact h
  · simpa [pointsInv] using h

theorem pointsInv_winMP (e : String) (v : TeamStats) (h : pointsInv v) :
    pointsInv (addMP (addWin e v)) := by
  simp only [pointsInv, addMP, addWin] at h ⊢
  rw [h]
  push_cast
  ring

theorem pointsInv_lossMP (v : TeamStats) (h : pointsInv v) :
    pointsInv (addMP (addLoss v)) := by
  simpa [pointsInv, addMP, addLoss] using h

theorem pointsInv_tieMP (e : String) (v : TeamStats) (h : pointsInv v) :
    pointsInv (addMP (addTie e v)) := by
  simp only [pointsInv, addMP, addTie] at h ⊢
  rw [h]
  push_cast
  ring

theorem mp_initEventPoints (e : String) (v : TeamStats) :
    (initEventPoints e v).matches_played = v.matches_played := by
  unfold initEventPoints
  split <;> rfl

theorem mp_winMP (e : String) (v : TeamStats) :
    (addMP (addWin e v)).matches_played = v.matches_played + 1 := rfl

theorem mp_lossMP (v : TeamStats) :
    (addMP (addLoss v)).matches_played = v.matches_played + 1 := rfl

theorem mp_tieMP (e : String) (v : TeamStats) :
    (addMP (addTie e v)).matches_played = v.matches_played + 1 := rfl

theorem foldl_dictModify_keys {A : Type} (key : A → Int) (f : A → TeamStats → TeamStats)
    (l : List A) :
    ∀ st : List (Int × TeamStats),
      dictKeys (l.foldl (fun st' q => dictModify (key q) (f q) st') st) = dictKeys st := by
  induction l with
  | nil => intro st; rfl
  | cons q rest ih =>
    intro st
    rw [List.foldl_cons, ih, dictKeys_dictModify]

theorem foldl_dictModify_forall {A : Type} (P : TeamStats → Prop) (key : A → Int)
    (f : A → TeamStats → TeamStats) (hf : ∀ a v, P v → P (f a v)) (l : List A) :
    ∀ st : List (Int × TeamStats), (∀ p ∈ st, P p.2) →
      ∀ p ∈ l.foldl (fun st' q => dictModify (key q) (f q) st') st, P p.2 := by
  induction l with
  | nil => intro st h; exact h
  | cons q rest ih =>
    intro st h
    rw [List.foldl_cons]
    exact ih _ (dictModify_forall (fun p => P p.2) (key q) (f q)
      (fun k' v hv => hf q v hv) st h)

theorem foldl_dictModify_sum_fix {A : Type} (key : A → Int)
    (f : A → TeamStats → TeamStats)
    (hf : ∀ a v, (f a v).matches_played = v.matches_played) (l : List A) :
    ∀ st : List (Int × TeamStats),
      ((l.foldl (fun st' q => dictModify (key q) (f q) st') st).map
          (fun p => p.2.matches_played)).sum
        = (st.map (fun p => p.2.matches_played)).sum := by
  induction l with
  | nil => intro st; rfl
  | cons q rest ih =>
    intro st
    rw [List.foldl_cons, ih, sum_dictModify_of_fix _ _ _ (hf q)]

theorem teamEventUpdate_pointsInv (wt tt pts : ℚ) (v : TeamStats)
    (h : pointsInv v) : pointsInv (teamEventUpdate wt tt pts v) := by
  unfold teamEventUpdate
  split
  · simpa [pointsInv] using h
  · split
    · simpa [pointsInv] using h
    · simpa [pointsInv] using h

theorem teamEventUpdate_mp (wt tt pts : ℚ) (v : TeamStats) :
    (teamEventUpdate wt tt pts v).matches_played = v.matches_played := by
  unfold teamEventUpdate
  split
  · rfl
  · split <;> rfl

theorem applyEventResult_keys (wt tt : ℚ) (sas : List TAssign)
    (st : List (Int × TeamStats)) (e : String) :
    dictKeys (applyEventResult wt tt sas st e) = dictKeys st := by
  unfold applyEventResult
  exact foldl_dictModify_keys (fun q => q.1)
    (fun q => teamEventUpdate wt tt q.2) (teamsInEvent st sas e) st

theorem applyEventResult_pointsInv (wt tt : ℚ) (sas : List TAssign)
    (st : List (Int × TeamStats)) (e : String)
    (h : ∀ p ∈ st, pointsInv p.2) :
    ∀ p ∈ applyEventResult wt tt sas st e, pointsInv p.2 := by
  unfold applyEventResult
  exact foldl_dictModify_forall pointsInv (fun q => q.1)
    (fun q => teamEventUpdate wt tt q.2)
    (fun q v hv => teamEventUpdate_pointsInv wt tt q.2 v hv)
    (teamsInEvent st sas e) st h

theorem applyEventResult_sum_fix (wt tt : ℚ) (sas : List TAssign)
    (st : List (Int × TeamStats)) (e : String) :
    ((applyEventResult wt tt sas st e).map (fun p => p.2.matches_played)).sum
      = (st.map (fun p => p.2.matches_played)).sum := by
  unfold applyEventResult
  exact foldl_dictModify_sum_fix (fun q => q.1)
    (fun q => teamEventUpdate wt tt q.2)
    (fun q v => teamEventUpdate_mp wt tt q.2 v) (teamsInEvent st sas e) st

theorem processAssignment_eq_avg (ps : List (String × List (Option Int × Int)))
    (avgs : List (String × Int)) (sas : List TAssign)
    (st : List (Int × TeamStats)) (a : TAssign)
    (h : a.opponent_player_id = PyVal.PStr "Avg") :
    processAssignment ps avgs sas st a
      = processAvg ps avgs (dictModify a.team_id (initEventPoints a.event) st) a := by
  unfold processAssignment
  simp only [h, if_pos rfl, ne_eq, not_true_eq_false, if_neg (fun hc : False => hc),
    if_false, ite_false, ite_true]

theorem processAssignment_eq_nil (ps : List (String × List (Option Int × Int)))
    (avgs : List (String × Int)) (sas : List TAssign)
    (st : List (Int × TeamStats)) (a : TAssign)
    (h : a.opponent_player_id ≠ PyVal.PStr "Avg")
    (hfil : sas.filter (fun ta => ta.event = a.event
        ∧ a.opponent_player_id = PyVal.PInt ta.player_id) = []) :
    processAssignment ps avgs sas st a
      = dictModify a.team_id (initEventPoints a.event) st := by
  unfold processAssignment
  simp only [ne_eq, h, not_false_eq_true, if_pos, if_neg h, hfil, ite_true]
  rw [if_neg (fun hc : False => hc)]

theorem processAssignment_eq_pvp (ps : List (String × List (Option Int × Int)))
    (avgs : List (String × Int)) (sas : List TAssign)
    (st : List (Int × TeamStats)) (a o : TAssign) (rest : List TAssign)
    (h : a.opponent_player_id ≠ PyVal.PStr "Avg")
    (hfil : sas.filter (fun ta => ta.event = a.event
        ∧ a.opponent_player_id = PyVal.PInt ta.player_id) = o :: rest) :
    processAssignment ps avgs sas st a
      = processPvp ps (dictModify a.team_id (initEventPoints a.event) st) a o := by
  unfold processAssignment
  simp only [ne_eq, h, not_false_eq_true, if_pos, if_neg h, hfil, ite_true]
  rw [if_neg (fun hc : False => hc)]

theorem processAvg_keys (ps : List (String × List (Option Int × Int)))
    (avgs : List (String × Int)) (st : List (Int × TeamStats)) (a : TAssign) :
    dictKeys (processAvg ps avgs st a) = dictKeys st := by
  unfold processAvg
  cases hx : dictGet? (some a.player_id) ((dictGet? a.event ps).getD []) with
  | none => simp only [dictKeys_dictModify]
  | some s1 =>
    simp only []
    split_ifs <;> simp only [dictKeys_dictModify]

theorem processPvp_keys (ps : List (String × List (Option Int × Int)))
    (st : List (Int × TeamStats)) (a o : TAssign) :
    dictKeys (processPvp ps st a o) = dictKeys st := by
  unfold processPvp
  split
  · rfl
  · split
    · rfl
    · cases hx : dictGet? (some a.player_id) ((dictGet? a.event ps).getD []) with
      | none =>
        cases hy : dictGet? (some o.player_id) ((dictGet? a.event ps).getD []) <;>
          simp only [dictKeys_dictModify]
      | some s1 =>
        cases hy : dictGet? (some o.player_id) ((dictGet? a.event ps).getD []) with
        | none => simp only [dictKeys_dictModify]
        | some s2 =>
          simp only []
          split_ifs <;> simp only [dictKeys_dictModify]

theorem processAssignment_keys (ps : List (String × List (Option Int × Int)))
    (avgs : List (String × Int)) (sas : List TAssign)
    (st : List (Int × TeamStats)) (a : TAssign) :
    dictKeys (processAssignment ps avgs sas st a) = dictKeys st := by
  by_cases h : a.opponent_player_id = PyVal.PStr "Avg"
  · rw [processAssignment_eq_avg ps avgs sas st a h, processAvg_keys,
      dictKeys_dictModify]
  · cases hfil : sas.filter (fun ta => ta.event = a.event
        ∧ a.opponent_player_id = PyVal.PInt ta.player_id) with
    | nil =>
      rw [processAssignment_eq_nil ps avgs sas st a h hfil, dictKeys_dictModify]
    | cons o rest =>
      rw [processAssignment_eq_pvp ps avgs sas st a o rest h hfil,
        processPvp_keys, dictKeys_dictModify]

theorem dictModify_forall_pInv (k : Int) (f : TeamStats → TeamStats)
    (hf : ∀ v, pointsInv v → pointsInv (f v)) (st : List (Int × TeamStats))
    (h : ∀ p ∈ st, pointsInv p.2) : ∀ p ∈ dictModify k f st, pointsInv p.2 :=
  dictModify_forall (fun p => pointsInv p.2) k f (fun _ v hv => hf v hv) st h

theorem processAvg_pointsInv (ps : List (String × List (Option Int × Int)))
    (avgs : List (String × Int)) (st : List (Int × TeamStats)) (a : TAssign)
    (h : ∀ p ∈ st, pointsInv p.2) : ∀ p ∈ processAvg ps avgs st a, pointsInv p.2 := by
  unfold processAvg
  cases hx : dictGet? (some a.player_id) ((dictGet? a.event ps).getD []) with
  | none => exact dictModify_forall_pInv _ _ (fun v hv => pointsInv_lossMP v hv) st h
  | some s1 =>
    simp only []
    split_ifs
    · exact dictModify_forall_pInv _ _ (fun v hv => pointsInv_winMP a.event v hv) st h
    · exact dictModify_forall_pInv _ _ (fun v hv => pointsInv_lossMP v hv) st h
    · exact dictModify_forall_pInv _ _ (fun v hv => pointsInv_tieMP a.event v hv) st h

theorem processPvp_pointsInv (ps : List (String × List (Option Int × Int)))
    (st : List (Int × TeamStats)) (a o : TAssign)
    (h : ∀ p ∈ st, pointsInv p.2) : ∀ p ∈ processPvp ps st a o, pointsInv p.2 := by
  unfold processPvp
  split
  · exact h
  · split
    · exact h
    · have hbase : ∀ p ∈ dictModify o.team_id (initEventPoints a.event) st,
          pointsInv p.2 :=
        dictModify_forall_pInv _ _ (fun v hv => pointsInv_initEventPoints a.event v hv) st h
      cases hx : dictGet? (some a.player_id) ((dictGet? a.event ps).getD []) with
      | none =>
        cases hy : dictGet? (some o.player_id) ((dictGet? a.event ps).getD []) with
        | none =>
          exact dictModify_forall_pInv _ _ (fun v hv => pointsInv_tieMP a.event v hv) _
            (dictModify_forall_pInv _ _ (fun v hv => pointsInv_tieMP a.event v hv) _ hbase)
        | some s2 =>
          exact dictModify_forall_pInv _ _ (fun v hv => pointsInv_winMP a.event v hv) _
            (dictModify_forall_pInv _ _ (fun v hv => pointsInv_lossMP v hv) _ hbase)
      | some s1 =>
        cases hy : dictGet? (some o.player_id) ((dictGet? a.event ps).getD []) with
        | none =>
          exact dictModify_forall_pInv _ _ (fun v hv => pointsInv_lossMP v hv) _
            (dictModify_forall_pInv _ _ (fun v hv => pointsInv_winMP a.event v hv) _ hbase)
        | some s2 =>
          simp only []
          split_ifs
          · exact dictModify_forall_pInv _ _ (fun v hv => pointsInv_lossMP v hv) _
              (dictModify_forall_pInv _ _ (fun v hv => pointsInv_winMP a.event v hv) _ hbase)
          · exact dictModify_forall_pInv _ _ (fun v hv => pointsInv_winMP a.event v hv) _
              (dictModify_forall_pInv _ _ (fun v hv => pointsInv_lossMP v hv) _ hbase)
          · exact dictModify_forall_pInv _ _ (fun v hv => pointsInv_tieMP a.event v hv) _
              (dictModify_forall_pInv _ _ (fun v hv => pointsInv_tieMP a.event v hv) _ hbase)

theorem processAssignment_pointsInv (ps : List (String × List (Option Int × Int)))
    (avgs : List (String × Int)) (sas : List TAssign)
    (st : List (Int × TeamStats)) (a : TAssign)
    (h : ∀ p ∈ st, pointsInv p.2) :
    ∀ p ∈ processAssignment ps avgs sas st a, pointsInv p.2 := by
  have hbase : ∀ p ∈ dictModify a.team_id (initEventPoints a.event) st, pointsInv p.2 :=
    dictModify_forall_pInv _ _ (fun v hv => pointsInv_initEventPoints a.event v hv) st h
  by_cases hAvg : a.opponent_player_id = PyVal.PStr "Avg"
  · rw [processAssignment_eq_avg ps avgs sas st a hAvg]
    exact processAvg_pointsInv ps avgs _ a hbase
  · cases hfil : sas.filter (fun ta => ta.event = a.event
        ∧ a.opponent_player_id = PyVal.PInt ta.player_id) with
    | nil =>
      rw [processAssignment_eq_nil ps avgs sas st a hAvg hfil]
      exact hbase
    | cons o rest =>
      rw [processAssignment_eq_pvp ps avgs sas st a o rest hAvg hfil]
      exact processPvp_pointsInv ps _ a o hbase

theorem processFold_keys (ps : List (String × List (Option Int × Int)))
    (avgs : List (String × Int)) (sas : List TAssign) (l : List TAssign) :
    ∀ st : List (Int × TeamStats),
      dictKeys (l.foldl (processAssignment ps avgs sas) st) = dictKeys st := by
  induction l with
  | nil => intro st; rfl
  | cons a rest ih =>
    intro st
    rw [List.foldl_cons, ih, processAssignment_keys]

theorem processFold_pointsInv (ps : List (String × List (Option Int × Int)))
    (avgs : List (String × Int)) (sas : List TAssign) (l : List TAssign) :
    ∀ st : List (Int × TeamStats), (∀ p ∈ st, pointsInv p.2) →
      ∀ p ∈ l.foldl (processAssignment ps avgs sas) st, pointsInv p.2 := by
  induction l with
  | nil => intro st h; exact h
  | cons a rest ih =>
    intro st h
    rw [List.foldl_cons]
    exact ih _ (processAssignment_pointsInv ps avgs sas st a h)

theorem eventsFold_keys (wt tt : ℚ) (sas : List TAssign) (evs : List String) :
    ∀ st : List (Int × TeamStats),
      dictKeys (evs.foldl (applyEventResult wt tt sas) st) = dictKeys st := by
  induction evs with
  | nil => intro st; rfl
  | cons e rest ih =>
    intro st
    rw [List.foldl_cons, ih, applyEventResult_keys]

theorem eventsFold_pointsInv (wt tt : ℚ) (sas : List TAssign) (evs : List String) :
    ∀ st : List (Int × TeamStats), (∀ p ∈ st, pointsInv p.2) →
      ∀ p ∈ evs.foldl (applyEventResult wt tt sas) st, pointsInv p.2 := by
  induction evs with
  | nil => intro st h; exact h
  | cons e rest ih =>
    intro st h
    rw [List.foldl_cons]
    exact ih _ (applyEventResult_pointsInv wt tt sas st e h)

theorem eventsFold_sum_fix (wt tt : ℚ) (sas : List TAssign) (evs : List String) :
    ∀ st : List (Int × TeamStats),
      ((evs.foldl (applyEventResult wt tt sas) st).map
          (fun p => p.2.matches_played)).sum
        = (st.map (fun p => p.2.matches_played)).sum := by
  induction evs with
  | nil => intro st; rfl
  | cons e rest ih =>
    intro st
    rw [List.foldl_cons, ih, applyEventResult_sum_fix]

theorem initStep_mem (teams : List (Int × TeamInfo)) (st : List (Int × TeamStats))
    (a : TAssign) (t : Int) :
    t ∈ dictKeys (initStep teams st a) ↔ t ∈ dictKeys st ∨ t = a.team_id := by
  unfold initStep
  split
  · rename_i hmem
    constructor
    · exact Or.inl
    · rintro (h | rfl)
      · exact h
      · exact hmem
  · rw [mem_dictKeys_dictInsert]
    tauto

theorem initFold_mem (teams : List (Int × TeamInfo)) (sas : List TAssign) :
    ∀ (d : List (Int × TeamStats)) (t : Int),
      t ∈ dictKeys (sas.foldl (initStep teams) d)
        ↔ t ∈ dictKeys d ∨ ∃ ta ∈ sas, ta.team_id = t := by
  induction sas with
  | nil => intro d t; simp
  | cons a rest ih =>
    intro d t
    rw [List.foldl_cons, ih, initStep_mem]
    simp only [List.exists_mem_cons_iff]
    tauto

theorem initFold_forall (teams : List (Int × TeamInfo)) (P : Int × TeamStats → Prop)
    (hdef : ∀ (t : Int) (nm : String), P (t, defaultTeamStats nm)) (sas : List TAssign) :
    ∀ d : List (Int × TeamStats), (∀ p ∈ d, P p) →
      ∀ p ∈ sas.foldl (initStep teams) d, P p := by
  induction sas with
  | nil => intro d h; exact h
  | cons a rest ih =>
    intro d h
    rw [List.foldl_cons]
    apply ih
    unfold initStep
    split
    · exact h
    · exact dictInsert_forall P _ _ (hdef _ _) d h

/-- C7: in every season's computed standings, each listed team's cumulative
points equal exactly `1.0 × wins + 0.5 × ties`, and every listed team has at
least one assignment row in that season (teams with zero assignment rows do
not appear). -/
theorem team_standings_points_inv (teams : List (Int × TeamInfo))
    (tas : List TAssign) (league : List ResultRow) (season : Int) :
    ∀ p ∈ calculate_team_standings teams tas league season,
      p.2.points = (p.2.wins : ℚ) + (p.2.ties : ℚ)/2
      ∧ ∃ ta ∈ tas, ta.season = season ∧ ta.team_id = p.1 := by
  intro p hp
  simp only [calculate_team_standings] at hp
  have hp2 := (List.perm_insertionSort standingsRel _).mem_iff.mp hp
  have hinv : ∀ q ∈ initTeamStandings teams (tas.filter (fun ta => ta.season = season)),
      pointsInv q.2 := by
    apply initFold_forall teams (fun q => pointsInv q.2)
      (fun t nm => pointsInv_default nm)
    intro q hq
    simp at hq
  constructor
  · have h1 := processFold_pointsInv
      (buildPlayerScores (league.filter (fun ld => ld.season = season)))
      (societyAverages (buildPlayerScores (league.filter (fun ld => ld.season = season))))
      (tas.filter (fun ta => ta.season = season))
      (tas.filter (fun ta => ta.season = season)) _ hinv
    exact eventsFold_pointsInv _ _ _ _ _ h1 p hp2
  · have hk1 := List.mem_map_of_mem (fun q : Int × TeamStats => q.1) hp2
    rw [show (List.map (fun q : Int × TeamStats => q.1)
        = fun l : List (Int × TeamStats) => dictKeys l) from rfl] at hk1
    simp only [] at hk1
    rw [eventsFold_keys, processFold_keys] at hk1
    rw [initTeamStandings, initFold_mem] at hk1
    rcases hk1 with h | ⟨ta, hta, hteq⟩
    · simp [dictKeys] at h
    · rcases List.mem_filter.mp hta with ⟨hmem, hsea⟩
      exact ⟨ta, hmem, by simpa using hsea, hteq⟩

def c7a : TAssign :=
  { player_id := 1, team_id := 10, team_name := "T10",
    opponent_player_id := PyVal.PStr "Avg", team_opponent := none,
    event := "E", season := 3 }

def c7stats : TeamStats :=
  { team_name := "Team 10", wins := 0, losses := 1, ties := 0, points := 0,
    matches_played := 1, team_wins := 0, team_losses := 1, team_ties := 0,
    team_matches_played := 1, points_by_event := [("E", 0)] }

/-- C7 witness: a one-assignment season. -/
theorem team_standings_points_inv_witness :
    ((10 : Int), c7stats).2.points
        = ((((10 : Int), c7stats).2.wins : ℚ) + (((10 : Int), c7stats).2.ties : ℚ)/2)
    ∧ ∃ ta ∈ [c7a], ta.season = 3 ∧ ta.team_id = ((10 : Int), c7stats).1 :=
  team_standings_points_inv [] [c7a] [] 3 (10, c7stats) (by
    simp [calculate_team_standings, c7a, c7stats, initTeamStandings, initStep,
      dictKeys, dictInsert, processAssignment, processAvg, dictGet?, dictModify,
      initEventPoints, defaultTeamStats, addLoss, addMP, collectEvents,
      teamsInEvent, applyEventResult, teamEventUpdate, List.insertionSort,
      List.orderedInsert, buildPlayerScores, societyAverages, standingsRel,
      lt_self_iff_false, (by norm_num : ¬ ((3 : ℚ) ≤ 0)),
      (by norm_num : ¬ ((5 : ℚ)/2 ≤ 0)),
      (show "Team " ++ toString (10 : Int) = "Team 10" from rfl)])

-- ─── C4: reciprocal fixtures are processed exactly once ────────────────────

theorem sum_two_bumps (t1 t2 : Int) (g1 g2 : TeamStats → TeamStats)
    (st : List (Int × TeamStats))
    (h1 : ∀ v, (g1 v).matches_played = v.matches_played + 1)
    (h2 : ∀ v, (g2 v).matches_played = v.matches_played + 1)
    (ht1 : t1 ∈ dictKeys st) (ht2 : t2 ∈ dictKeys st) :
    ((dictModify t2 g2 (dictModify t1 g1 st)).map (fun p => p.2.matches_played)).sum
      = (st.map (fun p => p.2.matches_played)).sum + 2 := by
  rw [sum_dictModify_of_add (fun v => v.matches_played) 1 t2 g2 h2 _
        (by rw [dictKeys_dictModify]; exact ht2),
      sum_dictModify_of_add (fun v => v.matches_played) 1 t1 g1 h1 st ht1]

theorem processPvp_skip (ps : List (String × List (Option Int × Int)))
    (st : List (Int × TeamStats)) (a o : TAssign)
    (hle : o.player_id ≤ a.player_id) : processPvp ps st a o = st := by
  unfold processPvp
  rw [if_pos hle]

theorem processPvp_sum_match (ps : List (String × List (Option Int × Int)))
    (st : List (Int × TeamStats)) (a o : TAssign)
    (hgt : ¬ o.player_id ≤ a.player_id)
    (ht2 : o.team_id ∈ dictKeys st) (ht1 : a.team_id ∈ dictKeys st) :
    ((processPvp ps st a o).map (fun p => p.2.matches_played)).sum
      = (st.map (fun p => p.2.matches_played)).sum + 2 := by
  unfold processPvp
  rw [if_neg hgt, if_neg (not_not_intro ht2)]
  have hbase : ((dictModify o.team_id (initEventPoints a.event) st).map
      (fun p => p.2.matches_played)).sum
      = (st.map (fun p => p.2.matches_played)).sum :=
    sum_dictModify_of_fix (fun v => v.matches_played) _ _
      (fun v => mp_initEventPoints a.event v) st
  have hk1 : a.team_id ∈ dictKeys (dictModify o.team_id (initEventPoints a.event) st) := by
    rw [dictKeys_dictModify]; exact ht1
  have hk2 : o.team_id ∈ dictKeys (dictModify o.team_id (initEventPoints a.event) st) := by
    rw [dictKeys_dictModify]; exact ht2
  cases hx : dictGet? (some a.player_id) ((dictGet? a.event ps).getD []) with
  | none =>
    cases hy : dictGet? (some o.player_id) ((dictGet? a.event ps).getD []) with
    | none =>
      rw [sum_two_bumps _ _ _ _ _ (fun v => mp_tieMP a.event v)
        (fun v => mp_tieMP a.event v) hk1 hk2, hbase]
    | some s2 =>
      rw [sum_two_bumps _ _ _ _ _ (fun v => mp_lossMP v)
        (fun v => mp_winMP a.event v) hk1 hk2, hbase]
  | some s1 =>
    cases hy : dictGet? (some o.player_id) ((dictGet? a.event ps).getD []) with
    | none =>
      rw [sum_two_bumps _ _ _ _ _ (fun v => mp_winMP a.event v)
        (fun v => mp_lossMP v) hk1 hk2, hbase]
    | some s2 =>
      simp only []
      split_ifs
      · rw [sum_two_bumps _ _ _ _ _ (fun v => mp_winMP a.event v)
          (fun v => mp_lossMP v) hk1 hk2, hbase]
      · rw [sum_two_bumps _ _ _ _ _ (fun v => mp_lossMP v)
          (fun v => mp_winMP a.event v) hk1 hk2, hbase]
      · rw [sum_two_bumps _ _ _ _ _ (fun v => mp_tieMP a.event v)
          (fun v => mp_tieMP a.event v) hk1 hk2, hbase]

theorem initFold_mp_zero (teams : List (Int × TeamInfo)) (sas : List TAssign) :
    ((initTeamStandings teams sas).map (fun p => p.2.matches_played)).sum = 0 := by
  apply List.sum_eq_zero
  intro n hn
  obtain ⟨p, hp, rfl⟩ := List.mem_map.mp hn
  have := initFold_forall teams (fun q => q.2.matches_played = 0)
    (fun t nm => rfl) sas [] (by simp) p hp
  exact this

theorem pair_sumMP (x y : TAssign) (teams : List (Int × TeamInfo))
    (league : List ResultRow) (s : Int)
    (hx : x.season = s) (hy : y.season = s) (hev : y.event = x.event)
    (hxy : x.opponent_player_id = PyVal.PInt y.player_id)
    (hyx : y.opponent_player_id = PyVal.PInt x.player_id)
    (hlt : x.player_id < y.player_id) :
    ((calculate_team_standings teams [x, y] league s).map
        (fun p => p.2.matches_played)).sum = 2
    ∧ ((calculate_team_standings teams [y, x] league s).map
        (fun p => p.2.matches_played)).sum = 2 := by
  have hne_x : x.opponent_player_id ≠ PyVal.PStr "Avg" := by rw [hxy]; simp
  have hne_y : y.opponent_player_id ≠ PyVal.PStr "Avg" := by rw [hyx]; simp
  have hpidne : ¬ (y.player_id = x.player_id) := fun h => absurd h.symm hlt.ne
  have hpidne2 : ¬ (x.player_id = y.player_id) := hlt.ne
  have hfx1 : [x, y].filter (fun ta => ta.event = x.event
      ∧ x.opponent_player_id = PyVal.PInt ta.player_id) = [y] := by
    simp [hxy, hev, hpidne]
  have hfx2 : [y, x].filter (fun ta => ta.event = x.event
      ∧ x.opponent_player_id = PyVal.PInt ta.player_id) = [y] := by
    simp [hxy, hev, hpidne]
  have hfy1 : [x, y].filter (fun ta => ta.event = y.event
      ∧ y.opponent_player_id = PyVal.PInt ta.player_id) = [x] := by
    simp [hyx, hev, hpidne2]
  have hfy2 : [y, x].filter (fun ta => ta.event = y.event
      ∧ y.opponent_player_id = PyVal.PInt ta.player_id) = [x] := by
    simp [hyx, hev, hpidne2]
  have hmx1 : x.team_id ∈ dictKeys (initTeamStandings teams [x, y]) := by
    rw [initTeamStandings, initFold_mem]
    exact Or.inr ⟨x, by simp, rfl⟩
  have hmy1 : y.team_id ∈ dictKeys (initTeamStandings teams [x, y]) := by
    rw [initTeamStandings, initFold_mem]
    exact Or.inr ⟨y, by simp, rfl⟩
  have hmx2 : x.team_id ∈ dictKeys (initTeamStandings teams [y, x]) := by
    rw [initTeamStandings, initFold_mem]
    exact Or.inr ⟨x, by simp, rfl⟩
  have hmy2 : y.team_id ∈ dictKeys (initTeamStandings teams [y, x]) := by
    rw [initTeamStandings, initFold_mem]
    exact Or.inr ⟨y, by simp, rfl⟩
  constructor
  · simp only [calculate_team_standings]
    rw [show [x, y].filter (fun ta => ta.season = s) = [x, y] by simp [hx, hy]]
    rw [((List.perm_insertionSort standingsRel _).map
      (fun p => p.2.matches_played)).sum_eq]
    rw [eventsFold_sum_fix]
    simp only [List.foldl_cons, List.foldl_nil]
    rw [processAssignment_eq_pvp _ _ _ _ x y [] hne_x hfx1]
    rw [processAssignment_eq_pvp _ _ _ _ y x [] hne_y hfy1]
    rw [processPvp_skip _ _ y x (le_of_lt hlt)]
    rw [sum_dictModify_of_fix (fun v => v.matches_played) _ _
      (fun v => mp_initEventPoints y.event v)]
    rw [processPvp_sum_match _ _ x y (not_le.mpr hlt)
      (by rw [dictKeys_dictModify]; exact hmy1)
      (by rw [dictKeys_dictModify]; exact hmx1)]
    rw [sum_dictModify_of_fix (fun v => v.matches_played) _ _
      (fun v => mp_initEventPoints x.event v)]
    rw [initFold_mp_zero]
  · simp only [calculate_team_standings]
    rw [show [y, x].filter (fun ta => ta.season = s) = [y, x] by simp [hx, hy]]
    rw [((List.perm_insertionSort standingsRel _).map
      (fun p => p.2.matches_played)).sum_eq]
    rw [eventsFold_sum_fix]
    simp only [List.foldl_cons, List.foldl_nil]
    rw [processAssignment_eq_pvp _ _ _ _ y x [] hne_y hfy2]
    rw [processPvp_skip _ _ y x (le_of_lt hlt)]
    rw [processAssignment_eq_pvp _ _ _ _ x y [] hne_x hfx2]
    rw [processPvp_sum_match _ _ x y (not_le.mpr hlt)
      (by rw [dictKeys_dictModify, dictKeys_dictModify]; exact hmy2)
      (by rw [dictKeys_dictModify, dictKeys_dictModify]; exact hmx2)]
    rw [sum_dictModify_of_fix (fun v => v.matches_played) _ _
      (fun v => mp_initEventPoints x.event v)]
    rw [sum_dictModify_of_fix (fun v => v.matches_played) _ _
      (fun v => mp_initEventPoints y.event v)]
    rw [initFold_mp_zero]

/-- C4: a player-vs-player fixture recorded as two reciprocal TeamAssignments
in the same event is processed exactly once — only from the side with the
numerically smaller `player_id` — so the total `matches_played` recorded
across the standings for the pair is exactly 2, never 4, in either input
order of the two assignments. -/
theorem reciprocal_pair_counted_once (a b : TAssign)
    (teams : List (Int × TeamInfo)) (league : List ResultRow) (s : Int)
    (hsa : a.season = s) (hsb : b.season = s) (hev : a.event = b.event)
    (hab : a.opponent_player_id = PyVal.PInt b.player_id)
    (hba : b.opponent_player_id = PyVal.PInt a.player_id)
    (hne : a.player_id ≠ b.player_id) :
    ((calculate_team_standings teams [a, b] league s).map
        (fun p => p.2.matches_played)).sum = 2
    ∧ ((calculate_team_standings teams [b, a] league s).map
        (fun p => p.2.matches_played)).sum = 2 := by
  rcases lt_or_gt_of_ne hne with hlt | hgt
  · exact pair_sumMP a b teams league s hsa hsb hev.symm hab hba hlt
  · have h := pair_sumMP b a teams league s hsb hsa hev hba hab hgt
    exact ⟨h.2, h.1⟩

def c4a : TAssign :=
  { player_id := 1, team_id := 10, team_name := "T10",
    opponent_player_id := PyVal.PInt 2, team_opponent := some 20,
    event := "E", season := 3 }

def c4b : TAssign :=
  { player_id := 2, team_id := 20, team_name := "T20",
    opponent_player_id := PyVal.PInt 1, team_opponent := some 10,
    event := "E", season := 3 }

/-- C4 witness: a concrete reciprocal pair, both input orders. -/
theorem reciprocal_pair_counted_once_witness :
    ((calculate_team_standings [] [c4a, c4b] [] 3).map
        (fun p => p.2.matches_played)).sum = 2
    ∧ ((calculate_team_standings [] [c4b, c4a] [] 3).map
        (fun p => p.2.matches_played)).sum = 2 :=
  reciprocal_pair_counted_once c4a c4b [] [] 3 rfl rfl rfl rfl rfl (by decide)

/-- C6 witness: the concrete assignment of the counterexample, through the
amended statement. -/
theorem avg_fixture_no_scores_witness :
    ∃ st : TeamStats,
      calculate_team_standings [] [c6assign] [] 3 = [(c6assign.team_id, st)]
      ∧ st.wins = 0 ∧ st.ties = 0 ∧ st.points = 0
      ∧ st.losses = 1 ∧ st.matches_played = 1 :=
  avg_fixture_no_scores c6assign [] [] 3 rfl rfl (by simp)


-- ─── C9: head-to-head comparator ───────────────────────────────────────────

/-- Unfolding getLast? one step from the front, phrased with Option.or. -/
theorem getLast?_cons_or {α : Type} (a : α) (l : List α) :
    (a :: l).getLast? = l.getLast?.or (some a) := by
  cases l with
  | nil => rfl
  | cons b m =>
    rw [List.getLast?_cons_cons, List.getLast?_eq_getLast (b :: m) (by simp)]
    rfl


/-- The comparison fold, characterized: the emitted list is the filterMap of
player1's dict against player2's dict, and each counter is a countP of that
list. Generalized over the accumulator. -/
theorem h2hCommon_spec (d2 : List (String × ResultRow)) (n1 n2 : String) :
    ∀ (d1 : List (String × ResultRow)) (acc : List H2HEvent × Nat × Nat × Nat),
      d1.foldl (fun acc p =>
        match dictGet? p.1 d2 with
        | none => acc
        | some p2row =>
          (acc.1 ++ [mkH2HEvent n1 n2 p.2 p2row],
           acc.2.1 + (if p.2.score < p2row.score then 1 else 0),
           acc.2.2.1 + (if p2row.score < p.2.score then 1 else 0),
           acc.2.2.2 + (if p.2.score = p2row.score then 1 else 0))) acc
      = (acc.1 ++ d1.filterMap (fun p => (dictGet? p.1 d2).map
            (fun q => mkH2HEvent n1 n2 p.2 q)),
         acc.2.1 + (d1.filterMap (fun p => (dictGet? p.1 d2).map
            (fun q => mkH2HEvent n1 n2 p.2 q))).countP
              (fun e => e.player1_score < e.player2_score),
         acc.2.2.1 + (d1.filterMap (fun p => (dictGet? p.1 d2).map
            (fun q => mkH2HEvent n1 n2 p.2 q))).countP
              (fun e => e.player2_score < e.player1_score),
         acc.2.2.2 + (d1.filterMap (fun p => (dictGet? p.1 d2).map
            (fun q => mkH2HEvent n1 n2 p.2 q))).countP
              (fun e => e.player1_score = e.player2_score)) := by
  intro d1
  induction d1 with
  | nil => intro acc; simp
  | cons p rest ih =>
    intro acc
    rw [List.foldl_cons]
    cases hg : dictGet? p.1 d2 with
    | none =>
      simp only [hg, List.filterMap_cons, Option.map_none']
      exact ih acc
    | some q =>
      simp only [hg, List.filterMap_cons, Option.map_some']
      rw [ih]
      have hps : (mkH2HEvent n1 n2 p.2 q).player1_score = p.2.score := rfl
      have hqs : (mkH2HEvent n1 n2 p.2 q).player2_score = q.score := rfl
      simp only [Prod.mk.injEq]
      refine ⟨by simp, ?_, ?_, ?_⟩
      · rw [List.countP_cons]
        simp only [hps, hqs, decide_eq_true_eq]
        by_cases h : p.2.score < q.score
        · simp [h]; omega
        · simp [h]
      · rw [List.countP_cons]
        simp only [hps, hqs, decide_eq_true_eq]
        by_cases h : q.score < p.2.score
        · simp [h]; omega
        · simp [h]
      · rw [List.countP_cons]
        simp only [hps, hqs, decide_eq_true_eq]
        by_cases h : p.2.score = q.score
        · simp [h]; omega
        · simp [h]

/-- h2hCommon in closed form. -/
theorem h2hCommon_eq (d1 d2 : List (String × ResultRow)) (n1 n2 : String) :
    h2hCommon d1 d2 n1 n2
      = (d1.filterMap (fun p => (dictGet? p.1 d2).map
            (fun q => mkH2HEvent n1 n2 p.2 q)),
         (d1.filterMap (fun p => (dictGet? p.1 d2).map
            (fun q => mkH2HEvent n1 n2 p.2 q))).countP
              (fun e => e.player1_score < e.player2_score),
         (d1.filterMap (fun p => (dictGet? p.1 d2).map
            (fun q => mkH2HEvent n1 n2 p.2 q))).countP
              (fun e => e.player2_score < e.player1_score),
         (d1.filterMap (fun p => (dictGet? p.1 d2).map
            (fun q => mkH2HEvent n1 n2 p.2 q))).countP
              (fun e => e.player1_score = e.player2_score)) := by
  have h := h2hCommon_spec d2 n1 n2 d1 ([], 0, 0, 0)
  simp only [List.nil_append, Nat.zero_add] at h
  exact h

/-- The dict-building fold keeps, per event key, the LAST matching row of the
data (dict overwrite): generalized over the accumulator. -/
theorem h2hBuild_aux (n1 n2 k : String) :
    ∀ (data : List ResultRow)
      (acc : List (String × ResultRow) × List (String × ResultRow)),
      dictGet? k (data.foldl (fun ds r =>
          if pyLowerString (pyStripString r.player_name) = pyLowerString n1 then
            (dictInsert (eventKeyOf r) r ds.1, ds.2)
          else if pyLowerString (pyStripString r.player_name) = pyLowerString n2 then
            (ds.1, dictInsert (eventKeyOf r) r ds.2)
          else ds) acc).1
        = ((data.filter (fun r => decide
            (pyLowerString (pyStripString r.player_name) = pyLowerString n1
            ∧ eventKeyOf r = k))).getLast?).or (dictGet? k acc.1)
      ∧ dictGet? k (data.foldl (fun ds r =>
          if pyLowerString (pyStripString r.player_name) = pyLowerString n1 then
            (dictInsert (eventKeyOf r) r ds.1, ds.2)
          else if pyLowerString (pyStripString r.player_name) = pyLowerString n2 then
            (ds.1, dictInsert (eventKeyOf r) r ds.2)
          else ds) acc).2
        = ((data.filter (fun r => decide
            (¬ pyLowerString (pyStripString r.player_name) = pyLowerString n1
            ∧ pyLowerString (pyStripString r.player_name) = pyLowerString n2
            ∧ eventKeyOf r = k))).getLast?).or (dictGet? k acc.2) := by
  intro data
  induction data with
  | nil => intro acc; simp
  | cons r rest ih =>
    intro acc
    rw [List.foldl_cons]
    by_cases h1 : pyLowerString (pyStripString r.player_name) = pyLowerString n1
    · rw [if_pos h1]
      have hf2 : (r :: rest).filter (fun r => decide
          (¬ pyLowerString (pyStripString r.player_name) = pyLowerString n1
          ∧ pyLowerString (pyStripString r.player_name) = pyLowerString n2
          ∧ eventKeyOf r = k))
          = rest.filter (fun r => decide
          (¬ pyLowerString (pyStripString r.player_name) = pyLowerString n1
          ∧ pyLowerString (pyStripString r.player_name) = pyLowerString n2
          ∧ eventKeyOf r = k)) := by
        simp [List.filter_cons, h1]
      rw [hf2]
      by_cases hk : eventKeyOf r = k
      · have hf1 : (r :: rest).filter (fun r => decide
            (pyLowerString (pyStripString r.player_name) = pyLowerString n1
            ∧ eventKeyOf r = k))
            = r :: rest.filter (fun r => decide
            (pyLowerString (pyStripString r.player_name) = pyLowerString n1
            ∧ eventKeyOf r = k)) := by
          simp [List.filter_cons, h1, hk]
        rw [hf1]
        refine ⟨?_, (ih _).2⟩
        rw [(ih _).1, getLast?_cons_or, Option.or_assoc]
        have hd : dictGet? k ((dictInsert (eventKeyOf r) r acc.1, acc.2) :
            List (String × ResultRow) × List (String × ResultRow)).1 = some r := by
          simp only []
          rw [dictGet?_dictInsert, if_pos hk]
        rw [hd]
        rfl
      · have hf1 : (r :: rest).filter (fun r => decide
            (pyLowerString (pyStripString r.player_name) = pyLowerString n1
            ∧ eventKeyOf r = k))
            = rest.filter (fun r => decide
            (pyLowerString (pyStripString r.player_name) = pyLowerString n1
            ∧ eventKeyOf r = k)) := by
          simp [List.filter_cons, hk]
        rw [hf1]
        refine ⟨?_, (ih _).2⟩
        rw [(ih _).1]
        have hd : dictGet? k ((dictInsert (eventKeyOf r) r acc.1, acc.2) :
            List (String × ResultRow) × List (String × ResultRow)).1
            = dictGet? k acc.1 := by
          simp only []
          rw [dictGet?_dictInsert, if_neg hk]
        rw [hd]
    · rw [if_neg h1]
      have hf1 : (r :: rest).filter (fun r => decide
          (pyLowerString (pyStripString r.player_name) = pyLowerString n1
          ∧ eventKeyOf r = k))
          = rest.filter (fun r => decide
          (pyLowerString (pyStripString r.player_name) = pyLowerString n1
          ∧ eventKeyOf r = k)) := by
        simp [List.filter_cons, h1]
      rw [hf1]
      by_cases h2 : pyLowerString (pyStripString r.player_name) = pyLowerString n2
      · rw [if_pos h2]
        by_cases hk : eventKeyOf r = k
        · have hf2 : (r :: rest).filter (fun r => decide
              (¬ pyLowerString (pyStripString r.player_name) = pyLowerString n1
              ∧ pyLowerString (pyStripString r.player_name) = pyLowerString n2
              ∧ eventKeyOf r = k))
              = r :: rest.filter (fun r => decide
              (¬ pyLowerString (pyStripString r.player_name) = pyLowerString n1
              ∧ pyLowerString (pyStripString r.player_name) = pyLowerString n2
              ∧ eventKeyOf r = k)) := by
            have hc : decide
                (¬ pyLowerString (pyStripString r.player_name) = pyLowerString n1
                ∧ pyLowerString (pyStripString r.player_name) = pyLowerString n2
                ∧ eventKeyOf r = k) = true := decide_eq_true ⟨h1, h2, hk⟩
            simp [List.filter_cons, hc]
            exact ⟨h1, h2, hk⟩
          rw [hf2]
          refine ⟨(ih _).1, ?_⟩
          rw [(ih _).2, getLast?_cons_or, Option.or_assoc]
          have hd : dictGet? k ((acc.1, dictInsert (eventKeyOf r) r acc.2) :
              List (String × ResultRow) × List (String × ResultRow)).2 = some r := by
            simp only []
            rw [dictGet?_dictInsert, if_pos hk]
          rw [hd]
          rfl
        · have hf2 : (r :: rest).filter (fun r => decide
              (¬ pyLowerString (pyStripString r.player_name) = pyLowerString n1
              ∧ pyLowerString (pyStripString r.player_name) = pyLowerString n2
              ∧ eventKeyOf r = k))
              = rest.filter (fun r => decide
              (¬ pyLowerString (pyStripString r.player_name) = pyLowerString n1
              ∧ pyLowerString (pyStripString r.player_name) = pyLowerString n2
              ∧ eventKeyOf r = k)) := by
            simp [List.filter_cons, hk]
          rw [hf2]
          refine ⟨(ih _).1, ?_⟩
          rw [(ih _).2]
          have hd : dictGet? k ((acc.1, dictInsert (eventKeyOf r) r acc.2) :
              List (String × ResultRow) × List (String × ResultRow)).2
              = dictGet? k acc.2 := by
            simp only []
            rw [dictGet?_dictInsert, if_neg hk]
          rw [hd]
      · rw [if_neg h2]
        have hf2 : (r :: rest).filter (fun r => decide
            (¬ pyLowerString (pyStripString r.player_name) = pyLowerString n1
            ∧ pyLowerString (pyStripString r.player_name) = pyLowerString n2
            ∧ eventKeyOf r = k))
            = rest.filter (fun r => decide
            (¬ pyLowerString (pyStripString r.player_name) = pyLowerString n1
            ∧ pyLowerString (pyStripString r.player_name) = pyLowerString n2
            ∧ eventKeyOf r = k)) := by
          simp [List.filter_cons, h2]
        rw [hf2]
        exact ih acc


/-- Each side of the built dict pair maps an event key to the last row of the
data whose (stripped, lowered) player name matches that side and whose
season-event key matches; the second dict only sees rows the first branch of
the elif did not take. -/
theorem h2hBuildDicts_get (data : List ResultRow) (n1 n2 k : String) :
    dictGet? k (h2hBuildDicts data n1 n2).1
      = (data.filter (fun r => decide
          (pyLowerString (pyStripString r.player_name) = pyLowerString n1
          ∧ eventKeyOf r = k))).getLast?
    ∧ dictGet? k (h2hBuildDicts data n1 n2).2
      = (data.filter (fun r => decide
          (¬ pyLowerString (pyStripString r.player_name) = pyLowerString n1
          ∧ pyLowerString (pyStripString r.player_name) = pyLowerString n2
          ∧ eventKeyOf r = k))).getLast? := by
  have h := h2hBuild_aux n1 n2 k data ([], [])
  simp only [dictGet?, Option.or_none] at h
  exact h

/-- Every entry of the building fold is stored under its own event key:
generalized over the accumulator. -/
theorem h2hBuild_keyAux (n1 n2 : String) :
    ∀ (data : List ResultRow)
      (acc : List (String × ResultRow) × List (String × ResultRow)),
      (∀ p ∈ acc.1, eventKeyOf p.2 = p.1) →
      (∀ p ∈ acc.2, eventKeyOf p.2 = p.1) →
      (∀ p ∈ (data.foldl (fun ds r =>
          if pyLowerString (pyStripString r.player_name) = pyLowerString n1 then
            (dictInsert (eventKeyOf r) r ds.1, ds.2)
          else if pyLowerString (pyStripString r.player_name) = pyLowerString n2 then
            (ds.1, dictInsert (eventKeyOf r) r ds.2)
          else ds) acc).1, eventKeyOf p.2 = p.1)
      ∧ (∀ p ∈ (data.foldl (fun ds r =>
          if pyLowerString (pyStripString r.player_name) = pyLowerString n1 then
            (dictInsert (eventKeyOf r) r ds.1, ds.2)
          else if pyLowerString (pyStripString r.player_name) = pyLowerString n2 then
            (ds.1, dictInsert (eventKeyOf r) r ds.2)
          else ds) acc).2, eventKeyOf p.2 = p.1) := by
  intro data
  induction data with
  | nil => intro acc h1 h2; exact ⟨h1, h2⟩
  | cons r rest ih =>
    intro acc ha1 ha2
    rw [List.foldl_cons]
    by_cases h1 : pyLowerString (pyStripString r.player_name) = pyLowerString n1
    · rw [if_pos h1]
      exact ih _ (dictInsert_forall (fun p => eventKeyOf p.2 = p.1)
        (eventKeyOf r) r rfl acc.1 ha1) ha2
    · rw [if_neg h1]
      by_cases h2 : pyLowerString (pyStripString r.player_name) = pyLowerString n2
      · rw [if_pos h2]
        exact ih _ ha1 (dictInsert_forall (fun p => eventKeyOf p.2 = p.1)
          (eventKeyOf r) r rfl acc.2 ha2)
      · rw [if_neg h2]
        exact ih acc ha1 ha2

/-- Every entry of the built dicts is stored under its own event key. -/
theorem h2hBuildDicts_keyInv (data : List ResultRow) (n1 n2 : String) :
    (∀ p ∈ (h2hBuildDicts data n1 n2).1, eventKeyOf p.2 = p.1)
    ∧ (∀ p ∈ (h2hBuildDicts data n1 n2).2, eventKeyOf p.2 = p.1) :=
  h2hBuild_keyAux n1 n2 data ([], []) (by simp) (by simp)

/-- Mapping each emitted common event back to its season-event key yields
exactly the keys of player1's dict that are present in player2's dict. -/
theorem h2hFM_map_key (d2 : List (String × ResultRow)) (n1 n2 : String) :
    ∀ (d1 : List (String × ResultRow)), (∀ p ∈ d1, eventKeyOf p.2 = p.1) →
      (d1.filterMap (fun p => (dictGet? p.1 d2).map
          (fun q => mkH2HEvent n1 n2 p.2 q))).map
          (fun e => toString e.season ++ "-" ++ e.event_id)
        = (dictKeys d1).filter (fun k => (dictGet? k d2).isSome) := by
  intro d1
  induction d1 with
  | nil => intro _; rfl
  | cons p rest ih =>
    intro hall
    have htl : ∀ q ∈ rest, eventKeyOf q.2 = q.1 :=
      fun q hq => hall q (List.mem_cons_of_mem _ hq)
    rw [List.filterMap_cons]
    have hkeys : dictKeys (p :: rest) = p.1 :: dictKeys rest := rfl
    rw [hkeys, List.filter_cons]
    cases hg : dictGet? p.1 d2 with
    | none =>
      simp only [hg, Option.map_none', Option.isSome_none]
      rw [if_neg (by simp)]
      exact ih htl
    | some q =>
      simp only [hg, Option.map_some', Option.isSome_some]
      rw [if_pos trivial, List.map_cons, ih htl]
      have hk : toString (mkH2HEvent n1 n2 p.2 q).season ++ "-"
          ++ (mkH2HEvent n1 n2 p.2 q).event_id = p.1 :=
        hall p (List.mem_cons_self p rest)
      rw [hk]

instance h2hRel_total : IsTotal H2HEvent h2hRel where
  total a b := by
    unfold h2hRel
    rcases lt_trichotomy a.season b.season with h | h | h
    · exact Or.inl (Or.inl h)
    · rcases le_total a.event_date b.event_date with hd | hd
      · exact Or.inl (Or.inr ⟨h, hd⟩)
      · exact Or.inr (Or.inr ⟨h.symm, hd⟩)
    · exact Or.inr (Or.inl h)

instance h2hRel_trans : IsTrans H2HEvent h2hRel where
  trans a b c hab hbc := by
    unfold h2hRel at *
    rcases hab with h1 | ⟨h1, hd1⟩
    · rcases hbc with h2 | ⟨h2, _⟩
      · exact Or.inl (h1.trans h2)
      · exact Or.inl (h2 ▸ h1)
    · rcases hbc with h2 | ⟨h2, hd2⟩
      · exact Or.inl (h1 ▸ h2)
      · exact Or.inr ⟨h1.trans h2, hd1.trans hd2⟩

/-- C9 (amended): the head-to-head comparator compares the two players over
the event keys where EACH PLAYER HAS AT LEAST ONE ROW, using each player's
LAST row per key (dict overwrite), not "exactly one row": the built dicts map
each key to the last matching row of the data; the emitted list covers, up to
permutation of keys, exactly the keys common to both dicts; the lower score
is recorded as the winner and equal scores as "Tie"; each counter (player1
wins, player2 wins, ties) counts exactly the emitted events won accordingly,
ties touching neither win counter; and the emitted list is sorted ascending
by (season, event date). -/
theorem head_to_head_last_row_behaviour (data : List ResultRow) (n1 n2 : String) :
    (∀ k : String,
      dictGet? k (h2hBuildDicts data n1 n2).1
        = (data.filter (fun r => decide
            (pyLowerString (pyStripString r.player_name) = pyLowerString n1
            ∧ eventKeyOf r = k))).getLast?
      ∧ dictGet? k (h2hBuildDicts data n1 n2).2
        = (data.filter (fun r => decide
            (¬ pyLowerString (pyStripString r.player_name) = pyLowerString n1
            ∧ pyLowerString (pyStripString r.player_name) = pyLowerString n2
            ∧ eventKeyOf r = k))).getLast?)
    ∧ ((head_to_head data n1 n2).1.map
        (fun e => toString e.season ++ "-" ++ e.event_id)).Perm
        ((dictKeys (h2hBuildDicts data n1 n2).1).filter
          (fun k => (dictGet? k (h2hBuildDicts data n1 n2).2).isSome))
    ∧ (∀ e ∈ (head_to_head data n1 n2).1,
        e.winner = if e.player1_score < e.player2_score then n1
                   else if e.player2_score < e.player1_score then n2 else "Tie")
    ∧ (head_to_head data n1 n2).2.1
        = (head_to_head data n1 n2).1.countP
            (fun e => decide (e.player1_score < e.player2_score))
    ∧ (head_to_head data n1 n2).2.2.1
        = (head_to_head data n1 n2).1.countP
            (fun e => decide (e.player2_score < e.player1_score))
    ∧ (head_to_head data n1 n2).2.2.2
        = (head_to_head data n1 n2).1.countP
            (fun e => decide (e.player1_score = e.player2_score))
    ∧ List.Sorted h2hRel (head_to_head data n1 n2).1 := by
  have hc := h2hCommon_eq (h2hBuildDicts data n1 n2).1 (h2hBuildDicts data n1 n2).2 n1 n2
  have hperm := List.perm_insertionSort h2hRel
    ((h2hCommon (h2hBuildDicts data n1 n2).1 (h2hBuildDicts data n1 n2).2 n1 n2).1)
  refine ⟨fun k => h2hBuildDicts_get data n1 n2 k, ?_, ?_, ?_, ?_, ?_, ?_⟩
  · show (List.map (fun e => toString e.season ++ "-" ++ e.event_id)
        (List.insertionSort h2hRel (h2hCommon (h2hBuildDicts data n1 n2).1
          (h2hBuildDicts data n1 n2).2 n1 n2).1)).Perm _
    refine (hperm.map (fun e => toString e.season ++ "-" ++ e.event_id)).trans ?_
    rw [hc]
    rw [h2hFM_map_key (h2hBuildDicts data n1 n2).2 n1 n2 (h2hBuildDicts data n1 n2).1
      (h2hBuildDicts_keyInv data n1 n2).1]
  · intro e he
    have he2 : e ∈ (h2hCommon (h2hBuildDicts data n1 n2).1
        (h2hBuildDicts data n1 n2).2 n1 n2).1 := hperm.mem_iff.mp he
    rw [hc] at he2
    obtain ⟨p, hp, hfp⟩ := List.mem_filterMap.mp he2
    obtain ⟨q, hq, hmk⟩ := Option.map_eq_some'.mp hfp
    subst hmk
    rfl
  · show (h2hCommon (h2hBuildDicts data n1 n2).1
        (h2hBuildDicts data n1 n2).2 n1 n2).2.1
      = List.countP (fun e => decide (e.player1_score < e.player2_score))
        (List.insertionSort h2hRel (h2hCommon (h2hBuildDicts data n1 n2).1
          (h2hBuildDicts data n1 n2).2 n1 n2).1)
    rw [hperm.countP_eq (fun e => decide (e.player1_score < e.player2_score)), hc]
  · show (h2hCommon (h2hBuildDicts data n1 n2).1
        (h2hBuildDicts data n1 n2).2 n1 n2).2.2.1
      = List.countP (fun e => decide (e.player2_score < e.player1_score))
        (List.insertionSort h2hRel (h2hCommon (h2hBuildDicts data n1 n2).1
          (h2hBuildDicts data n1 n2).2 n1 n2).1)
    rw [hperm.countP_eq (fun e => decide (e.player2_score < e.player1_score)), hc]
  · show (h2hCommon (h2hBuildDicts data n1 n2).1
        (h2hBuildDicts data n1 n2).2 n1 n2).2.2.2
      = List.countP (fun e => decide (e.player1_score = e.player2_score))
        (List.insertionSort h2hRel (h2hCommon (h2hBuildDicts data n1 n2).1
          (h2hBuildDicts data n1 n2).2 n1 n2).1)
    rw [hperm.countP_eq (fun e => decide (e.player1_score = e.player2_score)), hc]
  · exact List.sorted_insertionSort h2hRel _

/-- First row of player 1 for key "1-E" (overwritten). -/
def c9r1 : ResultRow :=
  ⟨some 1, "Alice", "E", "d1", 100, 5, 0, 0, 1, "A"⟩

/-- Second row of player 1 for key "1-E" (the one the dict keeps). -/
def c9r2 : ResultRow :=
  ⟨some 1, "Alice", "E", "d1", 68, 1, 0, 0, 1, "A"⟩

/-- Player 2 row for key "1-E". -/
def c9r3 : ResultRow :=
  ⟨some 2, "Bob", "E", "d1", 70, 2, 0, 0, 1, "A"⟩

/-- Data where player 1 has TWO rows under the same event key. -/
def c9data : List ResultRow := [c9r1, c9r2, c9r3]

/-- C9 counterexample: with two rows for player 1 under the same season-event
key "1-E" (so NOT "exactly one row each"), the comparator still emits a
compared event for that key - built from the LAST of the two rows (score 68,
not 100) - and counts it as a player-1 win. -/
theorem head_to_head_one_row_counterexample :
    ((c9data.filter (fun r => decide
        (pyLowerString (pyStripString r.player_name) = pyLowerString "alice"
        ∧ eventKeyOf r = "1-E"))).length = 2)
    ∧ (head_to_head c9data "alice" "bob").1.map
        (fun e => toString e.season ++ "-" ++ e.event_id) = ["1-E"]
    ∧ (head_to_head c9data "alice" "bob").2.1 = 1
    ∧ (head_to_head c9data "alice" "bob").1.map
        (fun e => e.player1_score) = [68] := by
  decide

/-- C9 witness: the amended statement applied to the concrete data. -/
theorem head_to_head_last_row_behaviour_witness :
    dictGet? "1-E" (h2hBuildDicts c9data "alice" "bob").1 = some c9r2
    ∧ (head_to_head c9data "alice" "bob").2.1
        = (head_to_head c9data "alice" "bob").1.countP
            (fun e => decide (e.player1_score < e.player2_score))
    ∧ List.Sorted h2hRel (head_to_head c9data "alice" "bob").1 := by
  refine ⟨?_,
    (head_to_head_last_row_behaviour c9data "alice" "bob").2.2.2.1,
    (head_to_head_last_row_behaviour c9data "alice" "bob").2.2.2.2.2.2⟩
  rw [((head_to_head_last_row_behaviour c9data "alice" "bob").1 "1-E").1]
  decide
